import Mathlib

/-!
# custom-labels/golang/main.go

A shallow embedding of the command-line program of `custom-labels/golang/main.go`:
it asks Rekognition for the custom labels of an image stored in S3, fetches the
image, draws every label's bounding box and name on it and saves `output.png`.

* Finite floating-point values are the rationals they denote; every conversion
  and multiplication rounds to the precision of its Go type.
* The services and libraries the program calls (the SDK, the image codec, the
  `gg` rasteriser, the file system) are the fields of a `World`.
* The copy that `NewContextForImage` makes of the decoded image and the
  encoding of `SavePNG` follow `image/draw` and `image/png` pixel by pixel:
  the buffer holds premultiplied colours, the file holds them unpremultiplied.
* A run is the sequence of calls `main` makes, with the exit status.
-/

namespace CustomLabels

/-! ## Floating point -/

/-- Nearest integer, ties to the even one. -/
def roundHalfEven (x : ℚ) : ℤ :=
  let f := ⌊x⌋
  if x - f < 1 / 2 then f
  else if 1 / 2 < x - f then f + 1
  else if f % 2 = 0 then f else f + 1

/-- Round `x` to `p` significant bits (round to nearest, ties to even). This is
the IEEE 754 rounding of a value in the normal range of a binary format of
precision `p`; overflow, subnormals, NaN and the sign of zero are not modelled. -/
def roundTo (p : ℕ) (x : ℚ) : ℚ :=
  if x = 0 then 0
  else
    let e : ℤ := Int.log 2 |x|
    let ulp : ℚ := 2 ^ (e - p + 1)
    roundHalfEven (x / ulp) * ulp

/-- The Go conversion `float32(x)`. -/
def float32 (x : ℚ) : ℚ := roundTo 24 x

/-- The Go conversion `float64(x)` of a `float32` or of an `int`. -/
def float64 (x : ℚ) : ℚ := roundTo 53 x

/-- The Go product `a * b` of two `float64` values. -/
def mulFloat64 (a b : ℚ) : ℚ := roundTo 53 (a * b)

/-- The values of 24 significant bits; every finite `float32` is one of them
(the exponent is left unbounded). -/
def IsFloat32 (x : ℚ) : Prop := ∃ m k : ℤ, |m| < 2 ^ 24 ∧ x = (m : ℚ) * 2 ^ k

/-! ## Package `flag` -/

/-- The cell of a registered flag. -/
inductive FlagValue
  | string (s : String)
  | float64 (v : ℚ)
  deriving DecidableEq

/-- A registered flag: its name and the current content of its cell. -/
structure Flag where
  name : String
  value : FlagValue
  deriving DecidableEq

/-- The set of registered flags, `flag.CommandLine`, in registration order. -/
abbrev FlagSet := List Flag

/-- The call `flag.String(name, value, usage)`: registers a string flag holding its
default and returns the pointer to its cell. A pointer is the name of the flag
that owns the cell. -/
def flagString (fs : FlagSet) (name value : String) : FlagSet × String :=
  (fs ++ [⟨name, .string value⟩], name)

/-- The call `flag.Float64(name, value, usage)`. -/
def flagFloat64 (fs : FlagSet) (name : String) (value : ℚ) : FlagSet × String :=
  (fs ++ [⟨name, .float64 value⟩], name)

/-- Dereference a `*string` that points into the flag set. -/
def derefString (fs : FlagSet) (p : String) : String :=
  match fs.find? (fun f => f.name = p) with
  | some ⟨_, .string s⟩ => s
  | _ => ""

/-- Dereference a `*float64` that points into the flag set. -/
def derefFloat64 (fs : FlagSet) (p : String) : ℚ :=
  match fs.find? (fun f => f.name = p) with
  | some ⟨_, .float64 v⟩ => v
  | _ => 0

/-- One flag of the command line, `-name value` or `-name=value`: the flag's
name, the text of its value and what `strconv.ParseFloat(value, 64)` makes of
that text (`none` when it is not a number). -/
structure Arg where
  name : String
  value : String
  parsed : Option ℚ
  deriving DecidableEq

/-- Overwrite the cell of the flag called `name`. -/
def FlagSet.store (fs : FlagSet) (name : String) (v : FlagValue) : FlagSet :=
  fs.map (fun f => if f.name = name then ⟨f.name, v⟩ else f)

/-- One step of `flag.Parse`: look the flag up and set its cell from the text.
The error is the exit status of the `ExitOnError` policy: 0 for an undefined
`-h` or `-help`, 2 for every other failure. -/
def setFlag (fs : FlagSet) (a : Arg) : Except ℕ FlagSet :=
  match fs.find? (fun f => f.name = a.name) with
  | none => .error (if a.name = "help" ∨ a.name = "h" then 0 else 2)
  | some f =>
    match f.value with
    | .string _ => .ok (fs.store a.name (.string a.value))
    | .float64 _ =>
      match a.parsed with
      | some v => .ok (fs.store a.name (.float64 v))
      | none => .error 2

/-- The call `flag.Parse()` over the flags of the command line, left to right. -/
def flagParse (fs : FlagSet) : List Arg → Except ℕ FlagSet
  | [] => .ok fs
  | a :: rest =>
    match setFlag fs a with
    | .error code => .error code
    | .ok fs1 => flagParse fs1 rest

/-! ## Request and response types of the SDK -/

namespace types

/-- The type `types.S3Object`. -/
structure S3Object where
  bucket : Option String
  name : Option String
  deriving DecidableEq

/-- The type `types.Image`. -/
structure Image where
  s3Object : Option S3Object
  deriving DecidableEq

/-- The type `types.BoundingBox`: four `*float32`. -/
structure BoundingBox where
  left : Option ℚ
  top : Option ℚ
  width : Option ℚ
  height : Option ℚ
  deriving DecidableEq

/-- The type `types.Geometry`. -/
structure Geometry where
  boundingBox : Option BoundingBox
  deriving DecidableEq

/-- The type `types.CustomLabel`. -/
structure CustomLabel where
  name : Option String
  confidence : Option ℚ
  geometry : Option Geometry
  deriving DecidableEq

end types

namespace rekognition

/-- The type `rekognition.DetectCustomLabelsInput`. -/
structure DetectCustomLabelsInput where
  image : Option types.Image
  projectVersionArn : Option String
  minConfidence : Option ℚ
  deriving DecidableEq

/-- The type `rekognition.DetectCustomLabelsOutput`. -/
structure DetectCustomLabelsOutput where
  customLabels : List types.CustomLabel
  deriving DecidableEq

end rekognition

namespace s3

/-- The type `s3.GetObjectInput`. -/
structure GetObjectInput where
  bucket : Option String
  key : Option String
  deriving DecidableEq

end s3

namespace color

/-- A colour of four 8-bit channels whose alpha is not premultiplied, Go's
`color.NRGBA`. -/
structure NRGBA where
  r : ℕ
  g : ℕ
  b : ℕ
  a : ℕ
  deriving DecidableEq

/-- A colour of four 8-bit channels whose alpha is premultiplied, Go's
`color.RGBA`. -/
structure RGBA where
  r : ℕ
  g : ℕ
  b : ℕ
  a : ℕ
  deriving DecidableEq

end color

namespace image

/-- A decoded `image.Image` of 8 bits per channel: its dimensions and the
colours of its pixels, not premultiplied, as `image.Decode` yields them for a
PNG with an alpha channel. A source of 16 bits per channel is not represented. -/
structure Image where
  width : ℤ
  height : ℤ
  pix : List color.NRGBA
  deriving DecidableEq

/-- The pixel buffer `image.RGBA` of a drawing context: premultiplied colours. -/
structure RGBA where
  width : ℤ
  height : ℤ
  pix : List color.RGBA
  deriving DecidableEq

end image

namespace draw

/-- One pixel of `draw.Draw(dst, r, src, sp, draw.Src)` into an `image.RGBA`:
the colour is converted to premultiplied alpha in `uint32` arithmetic and cut
to 8 bits (`drawNRGBASrc` of `image/draw`). -/
def premultiply (s : color.NRGBA) : color.RGBA :=
  let sa := s.a * 0x101 % 2 ^ 32
  let sr := s.r * sa % 2 ^ 32 / 0xff
  let sg := s.g * sa % 2 ^ 32 / 0xff
  let sb := s.b * sa % 2 ^ 32 / 0xff
  { r := sr / 2 ^ 8 % 256, g := sg / 2 ^ 8 % 256, b := sb / 2 ^ 8 % 256,
    a := sa / 2 ^ 8 % 256 }

end draw

namespace png

/-- One pixel of `png.Encode` of an `image.RGBA`: the colour the file stores,
with the premultiplication undone in `uint32` arithmetic (the `cbTCA8` branch
of `image/png`; an image of full alpha is written without alpha, with the same
colours). -/
def unpremultiply (s : color.RGBA) : color.NRGBA :=
  if s.a = 0x00 then { r := 0, g := 0, b := 0, a := 0 }
  else if s.a = 0xff then { r := s.r, g := s.g, b := s.b, a := s.a }
  else
    let m := 0x101 * 0xffff
    let a := s.a * 0x101 % 2 ^ 32
    { r := s.r * m % 2 ^ 32 / a / 2 ^ 8 % 256, g := s.g * m % 2 ^ 32 / a / 2 ^ 8 % 256,
      b := s.b * m % 2 ^ 32 / a / 2 ^ 8 % 256, a := s.a }

/-- The image in the file that `png.Encode` writes for the buffer `im`, as a
decoder reads it back. -/
def Encode (im : image.RGBA) : image.Image :=
  { width := im.width, height := im.height, pix := im.pix.map unpremultiply }

end png

/-! ## The drawing context of `gg` -/

namespace gg

/-- The state of a `gg.Context` that the program reads or writes. -/
structure Context where
  width : ℤ
  height : ℤ
  im : image.RGBA
  color : ℚ × ℚ × ℚ × ℚ
  lineWidth : ℚ
  fontFace : String
  path : List (ℚ × ℚ × ℚ × ℚ)
  deriving DecidableEq

/-- The copy `imageToRGBA(im)`: a fresh `image.RGBA` of the bounds of the
image, filled by `draw.Draw` with `draw.Src`. -/
def imageToRGBA (i : image.Image) : image.RGBA :=
  { width := i.width, height := i.height, pix := i.pix.map draw.premultiply }

/-- The call `gg.NewContextForImage(im)`: a context over the RGBA copy of the
image, of the image's dimensions, with the library defaults. -/
def NewContextForImage (i : image.Image) : Context :=
  { width := i.width, height := i.height, im := imageToRGBA i, color := (0, 0, 0, 0),
    lineWidth := 1, fontFace := "basicfont.Face7x13", path := [] }

/-- The call `SetRGB(r, g, b)`: a colour of full alpha. -/
def Context.SetRGB (c : Context) (r g b : ℚ) : Context :=
  { c with color := (r, g, b, 1) }

/-- The call `SetLineWidth(w)`. -/
def Context.SetLineWidth (c : Context) (w : ℚ) : Context :=
  { c with lineWidth := w }

/-- The call `LoadFontFace(path, points)` once the font file is read as `face`. -/
def Context.LoadFontFace (c : Context) (face : String) : Context :=
  { c with fontFace := face }

/-- The call `DrawRectangle(x, y, w, h)`: adds the rectangle to the current path. -/
def Context.DrawRectangle (c : Context) (x y w h : ℚ) : Context :=
  { c with path := c.path ++ [(x, y, w, h)] }

end gg

/-! ## The world outside the program -/

/-- The outcome of every call that leaves the program. -/
structure World where
  /-- The result of `config.LoadDefaultConfig`. -/
  loadDefaultConfig : Except String String
  /-- The service behind `DetectCustomLabels`. -/
  detectCustomLabels : String → rekognition.DetectCustomLabelsInput →
    Except String rekognition.DetectCustomLabelsOutput
  /-- The store behind `GetObject`: the body of the object. -/
  getObject : String → s3.GetObjectInput → Except String (List ℕ)
  /-- The codec `image.Decode`. -/
  decode : List ℕ → Except String image.Image
  /-- The font file read by `LoadFontFace(path, points)`. -/
  loadFontFace : String → ℚ → Except String String
  /-- The rasteriser of `Stroke`: the pixels after stroking the current path. -/
  stroke : gg.Context → image.RGBA
  /-- The rasteriser of `DrawString(s, x, y)`. -/
  drawString : gg.Context → String → ℚ → ℚ → image.RGBA
  /-- The file system under `SavePNG(path)`, which encodes the buffer with
  `png.Encode`: the error, if any. -/
  savePNG : String → image.RGBA → Option String

namespace gg

/-- The call `Stroke()`: strokes the current path onto the pixels and clears the path. -/
def Context.Stroke (c : Context) (w : World) : Context :=
  { c with im := w.stroke c, path := [] }

/-- The call `DrawString(s, x, y)`: renders the text onto the pixels. -/
def Context.DrawString (c : Context) (w : World) (s : String) (x y : ℚ) : Context :=
  { c with im := w.drawString c s x y }

end gg

/-! ## Runs -/

/-- An operand of a `log.Printf` call. -/
inductive Operand
  | str (s : String)
  | int (n : ℤ)
  | float (x : ℚ)
  deriving DecidableEq

/-- What `main` does, one call at a time. -/
inductive Event
  | loadDefaultConfig
  | detectCustomLabels (input : rekognition.DetectCustomLabelsInput)
  | printf (format : String) (operands : List Operand)
  | getObject (input : s3.GetObjectInput)
  | decode (body : List ℕ)
  | newContextForImage (i : image.Image)
  | loadFontFace (path : String) (points : ℚ)
  | setRGB (r g b : ℚ)
  | setLineWidth (w : ℚ)
  | drawRectangle (x y w h : ℚ)
  | stroke
  | drawString (s : String) (x y : ℚ)
  | savePNG (path : String) (im : image.RGBA)
  | fatalf (format : String) (err : String)
  | nilDereference
  deriving DecidableEq

/-- A run of the program: the calls it made and its exit status. -/
structure Run where
  trace : List Event
  exitCode : ℕ
  deriving DecidableEq

/-- The run that first makes the calls `es` and then goes on as `r`. -/
def Run.after (es : List Event) (r : Run) : Run :=
  { trace := es ++ r.trace, exitCode := r.exitCode }

/-- The call `log.Fatalf(format, err)`: one log line, then `os.Exit(1)`. -/
def fatalf (format err : String) : Run :=
  { trace := [.fatalf format err], exitCode := 1 }

/-- A nil pointer dereference: the runtime panics and the process exits with 2. -/
def nilDereference : Run :=
  { trace := [.nilDereference], exitCode := 2 }

/-! ## Package-level variables (lines 20 to 23)

They are evaluated once, in this order, before `main` starts. -/

/-- The flag set after line 20. -/
def init20 : FlagSet × String := flagString [] "bucket" ""

/-- The `*string` of line 20. -/
def bucketName : String := init20.2

/-- The flag set after line 21. -/
def init21 : FlagSet × String := flagString init20.1 "key" ""

/-- The `*string` of line 21. -/
def key : String := init21.2

/-- The flag set after line 22. -/
def init22 : FlagSet × String := flagString init21.1 "model-arn" ""

/-- The `*string` of line 22. -/
def modelArn : String := init22.2

/-- The flag set after line 23. -/
def init23 : FlagSet × String := flagFloat64 init22.1 "min-confidence" 70

/-- The `float32` of line 23: the flag's cell is read as soon as the flag is
registered, and converted. -/
def minConfidence : ℚ := float32 (derefFloat64 init23.1 init23.2)

/-- The registered flags when `main` starts. -/
def commandLine : FlagSet := init23.1

/-! ## `main` -/

/-- The `types.S3Object` of lines 34 to 36. -/
def s3Obj (fs : FlagSet) : types.S3Object :=
  { bucket := some (derefString fs bucketName), name := some (derefString fs key) }

/-- The request of lines 38 to 43. -/
def detectInput (fs : FlagSet) : rekognition.DetectCustomLabelsInput :=
  { image := some { s3Object := some (s3Obj fs) },
    projectVersionArn := some (derefString fs modelArn),
    minConfidence := some minConfidence }

/-- The request of lines 56 to 59. -/
def getObjectInput (fs : FlagSet) : s3.GetObjectInput :=
  { bucket := some (derefString fs bucketName), key := some (derefString fs key) }

/-- The loop of lines 51 to 53, followed by the rest `k` of the program. -/
def logLabels (k : Run) : List types.CustomLabel → Run
  | [] => k
  | label :: rest =>
    match label.name, label.confidence with
    | some name, some confidence =>
      Run.after [.printf "%v: %v\x08" [.str name, .float confidence]] (logLabels k rest)
    | _, _ => nilDereference

/-- The dereferences of lines 79 to 82, in order: `none` when the geometry, its
bounding box or one of the four fields is nil. -/
def boundingBoxFields (label : types.CustomLabel) : Option (ℚ × ℚ × ℚ × ℚ) :=
  match label.geometry with
  | none => none
  | some g =>
    match g.boundingBox with
    | none => none
    | some b =>
      match b.left, b.top, b.width, b.height with
      | some l, some t, some bw, some bh => some (l, t, bw, bh)
      | _, _, _, _ => none

/-- The calls of one iteration of the loop, lines 84 to 93, for the label of
index `i` called `name` and its rectangle in pixels. -/
def iterationCalls (i : ℕ) (name : String) (x y wd h : ℚ) : List Event :=
  [.printf "Detected label #%v: %v" [.int i, .str name],
   .printf "\tLeft: %v" [.float x],
   .printf "\tTop: %v" [.float y],
   .printf "\tWidth: %v" [.float wd],
   .printf "\tHeight: %v" [.float h],
   .drawRectangle x y wd h, .stroke, .drawString name x y, .stroke]

/-- The context after lines 90 to 93. -/
def drawLabel (w : World) (ggContext : gg.Context) (name : String) (x y wd h : ℚ) :
    gg.Context :=
  (((ggContext.DrawRectangle x y wd h).Stroke w).DrawString w name x y).Stroke w

/-- The loop of lines 78 to 94 from the label of index `i` on, followed by the
rest `k` of the program, which receives the context. -/
def annotate (w : World) (k : gg.Context → Run) :
    gg.Context → ℕ → List types.CustomLabel → Run
  | ggContext, _, [] => k ggContext
  | ggContext, i, label :: rest =>
    match boundingBoxFields label, label.name with
    | some (l, t, bw, bh), some name =>
      let x := mulFloat64 (float64 l) (float64 ggContext.width)
      let y := mulFloat64 (float64 t) (float64 ggContext.height)
      let wd := mulFloat64 (float64 bw) (float64 ggContext.width)
      let h := mulFloat64 (float64 bh) (float64 ggContext.height)
      Run.after (iterationCalls i name x y wd h)
        (annotate w k (drawLabel w ggContext name x y wd h) (i + 1) rest)
    | _, _ => nilDereference

/-- Lines 96 to 99. -/
def save (w : World) (ggContext : gg.Context) : Run :=
  Run.after [.savePNG "output.png" ggContext.im] <|
    match w.savePNG "output.png" ggContext.im with
    | some err => fatalf "error saving image: %v" err
    | none => { trace := [], exitCode := 0 }

/-- Lines 70 to 99. -/
def draw (w : World) (resp : rekognition.DetectCustomLabelsOutput) (i : image.Image) : Run :=
  Run.after [.newContextForImage i, .loadFontFace "/Library/Fonts/Arial Unicode.ttf" 100] <|
    match w.loadFontFace "/Library/Fonts/Arial Unicode.ttf" 100 with
    | .error err => fatalf "Unable to load font: %v" err
    | .ok face =>
      let ggContext := (gg.NewContextForImage i).LoadFontFace face
      Run.after [.setRGB 1 0 0, .setLineWidth 10] <|
        annotate w (save w) ((ggContext.SetRGB 1 0 0).SetLineWidth 10) 0 resp.customLabels

/-- Lines 55 to 99. -/
def retrieve (w : World) (fs : FlagSet) (cfg : String)
    (resp : rekognition.DetectCustomLabelsOutput) : Run :=
  Run.after [.getObject (getObjectInput fs)] <|
    match w.getObject cfg (getObjectInput fs) with
    | .error err => fatalf "unable to retrieve image: %v" err
    | .ok body =>
      Run.after [.decode body] <|
        match w.decode body with
        | .error err => fatalf "can\x27t decode image: %v" err
        | .ok i => draw w resp i

/-- Lines 33 to 99. -/
def detect (w : World) (fs : FlagSet) (cfg : String) : Run :=
  Run.after [.detectCustomLabels (detectInput fs)] <|
    match w.detectCustomLabels cfg (detectInput fs) with
    | .error err => fatalf "unable to detect custom labels, %v" err
    | .ok resp =>
      Run.after [.printf "Detected %v labels" [.int resp.customLabels.length]] <|
        logLabels (retrieve w fs cfg resp) resp.customLabels

/-- The program: `main` run on the flags `args` of the command line in the
world `w`. -/
def main (args : List Arg) (w : World) : Run :=
  match flagParse commandLine args with
  | .error code => { trace := [], exitCode := code }
  | .ok fs =>
    Run.after [.loadDefaultConfig] <|
      match w.loadDefaultConfig with
      | .error err => fatalf "unable to load SDK config, %v" err
      | .ok cfg => detect w fs cfg

/-! ## Reading a run -/

/-- The stage of the pipeline a call belongs to, in program order; logging and
aborting belong to no stage. -/
def Event.stage : Event → ℕ
  | .loadDefaultConfig => 1
  | .detectCustomLabels _ => 2
  | .getObject _ => 3
  | .decode _ => 4
  | .newContextForImage _ => 5
  | .loadFontFace _ _ => 6
  | .setRGB _ _ _ => 7
  | .setLineWidth _ => 7
  | .drawRectangle _ _ _ _ => 7
  | .stroke => 7
  | .drawString _ _ _ => 7
  | .savePNG _ _ => 8
  | .printf _ _ => 0
  | .fatalf _ _ => 0
  | .nilDereference => 0

/-- The drawing operations: the calls that add to the path or touch the pixels. -/
def Event.isDrawing : Event → Bool
  | .drawRectangle _ _ _ _ => true
  | .stroke => true
  | .drawString _ _ _ => true
  | _ => false

/-- The rectangles passed to `DrawRectangle`, in order. -/
def rectangles : List Event → List (ℚ × ℚ × ℚ × ℚ)
  | [] => []
  | .drawRectangle x y wd h :: rest => (x, y, wd, h) :: rectangles rest
  | _ :: rest => rectangles rest

/-- The texts passed to `DrawString` with their anchors, in order. -/
def texts : List Event → List (String × ℚ × ℚ)
  | [] => []
  | .drawString s x y :: rest => (s, x, y) :: texts rest
  | _ :: rest => texts rest

/-- The buffers handed to `SavePNG` with their paths, in order. -/
def savedImages : List Event → List (String × image.RGBA)
  | [] => []
  | .savePNG path im :: rest => (path, im) :: savedImages rest
  | _ :: rest => savedImages rest

/-- A label that carries a name, a confidence and a full bounding box. -/
def WellFormed (label : types.CustomLabel) : Prop :=
  label.name ≠ none ∧ label.confidence ≠ none ∧ boundingBoxFields label ≠ none

instance (label : types.CustomLabel) : Decidable (WellFormed label) := by
  unfold WellFormed
  exact inferInstance

/-- The call recorded by `ev` is one of the five fallible calls before saving
and the world answers it with the error `err`. -/
def Failed (w : World) (ev : Event) (err : String) : Prop :=
  match ev with
  | .loadDefaultConfig => w.loadDefaultConfig = .error err
  | .detectCustomLabels input =>
    ∃ cfg, w.loadDefaultConfig = .ok cfg ∧ w.detectCustomLabels cfg input = .error err
  | .getObject input =>
    ∃ cfg, w.loadDefaultConfig = .ok cfg ∧ w.getObject cfg input = .error err
  | .decode body => w.decode body = .error err
  | .loadFontFace path points => w.loadFontFace path points = .error err
  | _ => False

/-- The value the command line gives to the string flag `name`: the last one
supplied, or `dflt` when the flag is not on the command line. -/
def supplied (name : String) : List Arg → String → String
  | [], dflt => dflt
  | a :: rest, dflt => supplied name rest (if a.name = name then a.value else dflt)

/-- The calls of a completed logging loop (lines 51 to 53). -/
def logCalls : List types.CustomLabel → List Event
  | [] => []
  | label :: rest =>
    match label.name, label.confidence with
    | some name, some confidence =>
      .printf "%v: %v\x08" [.str name, .float confidence] :: logCalls rest
    | _, _ => []

/-- The calls of a completed annotation loop over an image of width `W` and
height `H`, from the label of index `i` on. -/
def annotationCalls (W H : ℤ) : ℕ → List types.CustomLabel → List Event
  | _, [] => []
  | i, label :: rest =>
    match boundingBoxFields label, label.name with
    | some (l, t, bw, bh), some name =>
      iterationCalls i name (mulFloat64 (float64 l) (float64 W))
          (mulFloat64 (float64 t) (float64 H)) (mulFloat64 (float64 bw) (float64 W))
          (mulFloat64 (float64 bh) (float64 H)) ++
        annotationCalls W H (i + 1) rest
    | _, _ => []

/-- The rectangle, in pixels of an image of width `W` and height `H`, that the
loop computes for a label (lines 79 to 82). -/
def labelRectangle (W H : ℤ) (label : types.CustomLabel) : Option (ℚ × ℚ × ℚ × ℚ) :=
  match boundingBoxFields label with
  | some (l, t, bw, bh) =>
    some (mulFloat64 (float64 l) (float64 W), mulFloat64 (float64 t) (float64 H),
      mulFloat64 (float64 bw) (float64 W), mulFloat64 (float64 bh) (float64 H))
  | none => none

/-- The text and the anchor that the loop computes for a label (line 92). -/
def labelText (W H : ℤ) (label : types.CustomLabel) : Option (String × ℚ × ℚ) :=
  match boundingBoxFields label, label.name with
  | some (l, t, _, _), some name =>
    some (name, mulFloat64 (float64 l) (float64 W), mulFloat64 (float64 t) (float64 H))
  | _, _ => none

/-- The context after the annotation loop has drawn the labels it reaches. -/
def annotatedContext (w : World) : gg.Context → List types.CustomLabel → gg.Context
  | c, [] => c
  | c, label :: rest =>
    match boundingBoxFields label, label.name with
    | some (l, t, bw, bh), some name =>
      annotatedContext w
        (drawLabel w c name (mulFloat64 (float64 l) (float64 c.width))
          (mulFloat64 (float64 t) (float64 c.height)) (mulFloat64 (float64 bw) (float64 c.width))
          (mulFloat64 (float64 bh) (float64 c.height)))
        rest
    | _, _ => c

/-- The context when the annotation loop starts (lines 70 to 76). -/
def loopContext (i : image.Image) (face : String) : gg.Context :=
  ((((gg.NewContextForImage i).LoadFontFace face).SetRGB 1 0 0).SetLineWidth 10)

/-- The calls of a run up to the end of the logging loop. -/
def callsToLog (fs : FlagSet) (resp : rekognition.DetectCustomLabelsOutput) : List Event :=
  [.loadDefaultConfig, .detectCustomLabels (detectInput fs),
   .printf "Detected %v labels" [.int resp.customLabels.length]] ++ logCalls resp.customLabels

/-- The calls of a run from the fetch to the end of the annotation loop. -/
def callsToSave (fs : FlagSet) (resp : rekognition.DetectCustomLabelsOutput) (body : List ℕ)
    (i : image.Image) : List Event :=
  [.getObject (getObjectInput fs), .decode body, .newContextForImage i,
   .loadFontFace "/Library/Fonts/Arial Unicode.ttf" 100, .setRGB 1 0 0, .setLineWidth 10] ++
    annotationCalls i.width i.height 0 resp.customLabels

/-- The ways a run of `main` can end, each with the calls made until then. -/
inductive Outcome (args : List Arg) (w : World) : Run → Prop
  | flagError (code : ℕ) (hp : flagParse commandLine args = .error code) :
    Outcome args w ⟨[], code⟩
  | configError (fs : FlagSet) (err : String) (hp : flagParse commandLine args = .ok fs)
    (hc : w.loadDefaultConfig = .error err) :
    Outcome args w ⟨[.loadDefaultConfig, .fatalf "unable to load SDK config, %v" err], 1⟩
  | detectError (fs : FlagSet) (cfg err : String)
    (hp : flagParse commandLine args = .ok fs) (hc : w.loadDefaultConfig = .ok cfg)
    (hd : w.detectCustomLabels cfg (detectInput fs) = .error err) :
    Outcome args w ⟨[.loadDefaultConfig, .detectCustomLabels (detectInput fs),
      .fatalf "unable to detect custom labels, %v" err], 1⟩
  | logNil (fs : FlagSet) (cfg : String) (resp : rekognition.DetectCustomLabelsOutput)
    (hp : flagParse commandLine args = .ok fs) (hc : w.loadDefaultConfig = .ok cfg)
    (hd : w.detectCustomLabels cfg (detectInput fs) = .ok resp)
    (hl : ∃ l ∈ resp.customLabels, l.name = none ∨ l.confidence = none) :
    Outcome args w ⟨callsToLog fs resp ++ [.nilDereference], 2⟩
  | fetchError (fs : FlagSet) (cfg : String) (resp : rekognition.DetectCustomLabelsOutput)
    (err : String)
    (hp : flagParse commandLine args = .ok fs) (hc : w.loadDefaultConfig = .ok cfg)
    (hd : w.detectCustomLabels cfg (detectInput fs) = .ok resp)
    (hl : ∀ l ∈ resp.customLabels, l.name ≠ none ∧ l.confidence ≠ none)
    (hg : w.getObject cfg (getObjectInput fs) = .error err) :
    Outcome args w ⟨callsToLog fs resp ++
      [.getObject (getObjectInput fs), .fatalf "unable to retrieve image: %v" err], 1⟩
  | decodeError (fs : FlagSet) (cfg : String) (resp : rekognition.DetectCustomLabelsOutput)
    (body : List ℕ) (err : String)
    (hp : flagParse commandLine args = .ok fs) (hc : w.loadDefaultConfig = .ok cfg)
    (hd : w.detectCustomLabels cfg (detectInput fs) = .ok resp)
    (hl : ∀ l ∈ resp.customLabels, l.name ≠ none ∧ l.confidence ≠ none)
    (hg : w.getObject cfg (getObjectInput fs) = .ok body)
    (hi : w.decode body = .error err) :
    Outcome args w ⟨callsToLog fs resp ++
      [.getObject (getObjectInput fs), .decode body,
       .fatalf "can\x27t decode image: %v" err], 1⟩
  | fontError (fs : FlagSet) (cfg : String) (resp : rekognition.DetectCustomLabelsOutput)
    (body : List ℕ) (i : image.Image) (err : String)
    (hp : flagParse commandLine args = .ok fs) (hc : w.loadDefaultConfig = .ok cfg)
    (hd : w.detectCustomLabels cfg (detectInput fs) = .ok resp)
    (hl : ∀ l ∈ resp.customLabels, l.name ≠ none ∧ l.confidence ≠ none)
    (hg : w.getObject cfg (getObjectInput fs) = .ok body)
    (hi : w.decode body = .ok i)
    (hf : w.loadFontFace "/Library/Fonts/Arial Unicode.ttf" 100 = .error err) :
    Outcome args w ⟨callsToLog fs resp ++
      [.getObject (getObjectInput fs), .decode body, .newContextForImage i,
       .loadFontFace "/Library/Fonts/Arial Unicode.ttf" 100,
       .fatalf "Unable to load font: %v" err], 1⟩
  | drawNil (fs : FlagSet) (cfg : String) (resp : rekognition.DetectCustomLabelsOutput)
    (body : List ℕ) (i : image.Image) (face : String)
    (hp : flagParse commandLine args = .ok fs) (hc : w.loadDefaultConfig = .ok cfg)
    (hd : w.detectCustomLabels cfg (detectInput fs) = .ok resp)
    (hl : ∀ l ∈ resp.customLabels, l.name ≠ none ∧ l.confidence ≠ none)
    (hg : w.getObject cfg (getObjectInput fs) = .ok body)
    (hi : w.decode body = .ok i)
    (hf : w.loadFontFace "/Library/Fonts/Arial Unicode.ttf" 100 = .ok face)
    (hb : ∃ l ∈ resp.customLabels, boundingBoxFields l = none) :
    Outcome args w ⟨callsToLog fs resp ++ callsToSave fs resp body i ++
      [.nilDereference], 2⟩
  | saveError (fs : FlagSet) (cfg : String) (resp : rekognition.DetectCustomLabelsOutput)
    (body : List ℕ) (i : image.Image) (face : String) (err : String)
    (hp : flagParse commandLine args = .ok fs) (hc : w.loadDefaultConfig = .ok cfg)
    (hd : w.detectCustomLabels cfg (detectInput fs) = .ok resp)
    (hl : ∀ l ∈ resp.customLabels, l.name ≠ none ∧ l.confidence ≠ none)
    (hg : w.getObject cfg (getObjectInput fs) = .ok body)
    (hi : w.decode body = .ok i)
    (hf : w.loadFontFace "/Library/Fonts/Arial Unicode.ttf" 100 = .ok face)
    (hb : ∀ l ∈ resp.customLabels, boundingBoxFields l ≠ none)
    (hs : w.savePNG "output.png"
      (annotatedContext w (loopContext i face) resp.customLabels).im = some err) :
    Outcome args w ⟨callsToLog fs resp ++ callsToSave fs resp body i ++
      [.savePNG "output.png" (annotatedContext w (loopContext i face) resp.customLabels).im,
       .fatalf "error saving image: %v" err], 1⟩
  | saved (fs : FlagSet) (cfg : String) (resp : rekognition.DetectCustomLabelsOutput)
    (body : List ℕ) (i : image.Image) (face : String)
    (hp : flagParse commandLine args = .ok fs) (hc : w.loadDefaultConfig = .ok cfg)
    (hd : w.detectCustomLabels cfg (detectInput fs) = .ok resp)
    (hl : ∀ l ∈ resp.customLabels, l.name ≠ none ∧ l.confidence ≠ none)
    (hg : w.getObject cfg (getObjectInput fs) = .ok body)
    (hi : w.decode body = .ok i)
    (hf : w.loadFontFace "/Library/Fonts/Arial Unicode.ttf" 100 = .ok face)
    (hb : ∀ l ∈ resp.customLabels, boundingBoxFields l ≠ none)
    (hs : w.savePNG "output.png"
      (annotatedContext w (loopContext i face) resp.customLabels).im = none) :
    Outcome args w ⟨callsToLog fs resp ++ callsToSave fs resp body i ++
      [.savePNG "output.png" (annotatedContext w (loopContext i face) resp.customLabels).im], 0⟩

/-! ## Example worlds -/

/-- A world in which every call succeeds: the service answers `labels`, the
codec decodes the image `i`, and each drawing call leaves a mark in the pixels. -/
def okWorld (labels : List types.CustomLabel) (i : image.Image) : World :=
  { loadDefaultConfig := .ok "us-east-1",
    detectCustomLabels := fun _ _ => .ok { customLabels := labels },
    getObject := fun _ _ => .ok [137, 80, 78, 71],
    decode := fun _ => .ok i,
    loadFontFace := fun _ _ => .ok "Arial Unicode",
    stroke := fun c => { c.im with pix := c.im.pix.map fun _ => ⟨255, 0, 0, 255⟩ },
    drawString := fun c _ _ _ => { c.im with pix := c.im.pix.map fun _ => ⟨0, 0, 0, 255⟩ },
    savePNG := fun _ _ => none }

/-- A two by one image with partial alpha. -/
def alphaImage : image.Image :=
  { width := 2, height := 1, pix := [⟨200, 100, 50, 3⟩, ⟨10, 20, 30, 128⟩] }

/-- A two by one image of full alpha. -/
def smallImage : image.Image :=
  { width := 2, height := 1, pix := [⟨255, 255, 255, 255⟩, ⟨0, 0, 0, 255⟩] }

/-- A label that covers the whole image. -/
def fullLabel : types.CustomLabel :=
  { name := some "All", confidence := some 99,
    geometry := some ⟨some ⟨some 0, some 0, some 1, some 1⟩⟩ }

/-- The command line `--min-confidence 50`. -/
def args50 : List Arg := [⟨"min-confidence", "50", some 50⟩]

/-- The flag set after parsing `--min-confidence 50`. -/
def flags50 : FlagSet :=
  [⟨"bucket", .string ""⟩, ⟨"key", .string ""⟩, ⟨"model-arn", .string ""⟩,
   ⟨"min-confidence", .float64 50⟩]

/-- The command line of the scenario: bucket `photos`, key `cat.jpg`, model
`arn:model/v1`. -/
def catArgs : List Arg :=
  [⟨"bucket", "photos", none⟩, ⟨"key", "cat.jpg", none⟩, ⟨"model-arn", "arn:model/v1", none⟩]

/-- The flag set after parsing `catArgs`. -/
def catFlags : FlagSet :=
  [⟨"bucket", .string "photos"⟩, ⟨"key", .string "cat.jpg"⟩,
   ⟨"model-arn", .string "arn:model/v1"⟩, ⟨"min-confidence", .float64 70⟩]

/-- A world in which the object is not in the bucket. -/
def noSuchKeyWorld : World :=
  { okWorld [] smallImage with getObject := fun _ _ => .error "NoSuchKey" }

/-- A label that covers the right half of the image. -/
def halfLabel : types.CustomLabel :=
  { name := some "Half", confidence := some 80,
    geometry := some ⟨some ⟨some (1 / 2), some 0, some (1 / 2), some 1⟩⟩ }

/-- A response with two well-formed labels. -/
def twoLabels : rekognition.DetectCustomLabelsOutput :=
  { customLabels := [fullLabel, halfLabel] }

/-- A response without labels. -/
def noLabels : rekognition.DetectCustomLabelsOutput :=
  { customLabels := [] }

/-- The label of the scenario: `Cat`, confidence 92.5, box `(0.1, 0.2, 0.3,
0.4)`, each number as the `float32` the response holds. -/
def catLabel : types.CustomLabel :=
  { name := some "Cat", confidence := some (float32 (185 / 2)),
    geometry := some ⟨some ⟨some (float32 (1 / 10)), some (float32 (1 / 5)),
      some (float32 (3 / 10)), some (float32 (2 / 5))⟩⟩ }

/-- The response of the scenario. -/
def catResponse : rekognition.DetectCustomLabelsOutput :=
  { customLabels := [catLabel] }

/-- A source image of 1000 by 500 pixels. -/
def catImage : image.Image :=
  { width := 1000, height := 500, pix := List.replicate 500000 ⟨255, 255, 255, 255⟩ }

/-- A label without name, confidence or geometry. -/
def bareLabel : types.CustomLabel :=
  { name := none, confidence := none, geometry := none }

/-- A label with a name and a confidence and no geometry. -/
def ghostLabel : types.CustomLabel :=
  { name := some "Ghost", confidence := some 50, geometry := none }

/-- A response whose second label lacks its geometry. -/
def ghostResponse : rekognition.DetectCustomLabelsOutput :=
  { customLabels := [fullLabel, ghostLabel, halfLabel] }

/-- A response whose only label is bare. -/
def bareResponse : rekognition.DetectCustomLabelsOutput :=
  { customLabels := [bareLabel] }

theorem roundHalfEven_intCast (n : ℤ) : roundHalfEven (n : ℚ) = n := by
  simp [roundHalfEven]

theorem roundHalfEven_eq_of_near (x : ℚ) (n : ℤ) (h1 : (n : ℚ) - 1 / 2 < x)
    (h2 : x < (n : ℚ) + 1 / 2) : roundHalfEven x = n := by
  unfold roundHalfEven
  simp only
  have hf1 : (⌊x⌋ : ℚ) ≤ x := Int.floor_le x
  have hf2 : x < (⌊x⌋ : ℚ) + 1 := Int.lt_floor_add_one x
  have hlo : n - 1 < ⌊x⌋ + 1 := by
    have : ((n - 1 : ℤ) : ℚ) < ((⌊x⌋ + 1 : ℤ) : ℚ) := by push_cast; linarith
    exact_mod_cast this
  have hhi : ⌊x⌋ < n + 1 := by
    have : ((⌊x⌋ : ℤ) : ℚ) < ((n + 1 : ℤ) : ℚ) := by push_cast; linarith
    exact_mod_cast this
  have hcases : ⌊x⌋ = n ∨ ⌊x⌋ = n - 1 := by omega
  rcases hcases with h | h
  · have hx : x - ((n : ℤ) : ℚ) < 1 / 2 := by linarith
    rw [h, if_pos hx]
  · have hx : ¬ (x - ((n - 1 : ℤ) : ℚ) < 1 / 2) := by push_cast; linarith
    have hx2 : 1 / 2 < x - ((n - 1 : ℤ) : ℚ) := by push_cast; linarith
    rw [h, if_neg hx, if_pos hx2]
    ring

theorem roundHalfEven_lower (x : ℚ) (a : ℤ) (h : (a : ℚ) ≤ x) : a ≤ roundHalfEven x := by
  have hf : a ≤ ⌊x⌋ := Int.le_floor.mpr h
  unfold roundHalfEven
  simp only
  split_ifs <;> omega

theorem roundHalfEven_upper (x : ℚ) (b : ℤ) (h : x ≤ (b : ℚ)) : roundHalfEven x ≤ b := by
  rcases lt_or_eq_of_le h with hlt | heq
  · have hf : ⌊x⌋ < b := Int.floor_lt.mpr hlt
    unfold roundHalfEven
    simp only
    split_ifs <;> omega
  · rw [heq, roundHalfEven_intCast]

theorem log_bounds (x : ℚ) (hx : x ≠ 0) :
    (2 : ℚ) ^ (Int.log 2 |x|) ≤ |x| ∧ |x| < (2 : ℚ) ^ (Int.log 2 |x| + 1) := by
  have hpos : 0 < |x| := abs_pos.mpr hx
  constructor
  · have := @Int.zpow_log_le_self ℚ _ _ 2 |x| (by norm_num) hpos
    simpa using this
  · have := @Int.lt_zpow_succ_log_self ℚ _ _ 2 (by norm_num) |x|
    simpa using this

theorem log_eq_of_bounds (x : ℚ) (e : ℤ) (h1 : (2 : ℚ) ^ e ≤ |x|) (h2 : |x| < (2 : ℚ) ^ (e + 1)) :
    Int.log 2 |x| = e := by
  have hpos : 0 < |x| := lt_of_lt_of_le (by positivity) h1
  have ha : e ≤ Int.log 2 |x| := (@Int.zpow_le_iff_le_log ℚ _ _ 2 (by norm_num) e |x| hpos).mp (by simpa using h1)
  have hb : Int.log 2 |x| < e + 1 := (@Int.lt_zpow_iff_log_lt ℚ _ _ 2 (by norm_num) (e + 1) |x| hpos).mp (by simpa using h2)
  omega

theorem roundTo_zero (p : ℕ) : roundTo p 0 = 0 := by
  simp [roundTo]

theorem roundTo_of_log (p : ℕ) (x : ℚ) (e : ℤ) (h1 : (2 : ℚ) ^ e ≤ |x|)
    (h2 : |x| < (2 : ℚ) ^ (e + 1)) :
    roundTo p x = roundHalfEven (x / 2 ^ (e - p + 1)) * 2 ^ (e - p + 1) := by
  have hpos : 0 < |x| := lt_of_lt_of_le (by positivity) h1
  have hx : x ≠ 0 := abs_pos.mp hpos
  unfold roundTo
  rw [if_neg hx]
  simp only [log_eq_of_bounds x e h1 h2]

theorem two_zpow_lt_imp (a b : ℤ) (h : (2 : ℚ) ^ a < (2 : ℚ) ^ b) : a < b := by
  by_contra hc
  push_neg at hc
  have : (2 : ℚ) ^ b ≤ (2 : ℚ) ^ a := zpow_le_zpow_right₀ (by norm_num) hc
  linarith

theorem roundTo_dyadic (p : ℕ) (m k : ℤ) (hm : |m| < 2 ^ p) :
    roundTo p ((m : ℚ) * 2 ^ k) = (m : ℚ) * 2 ^ k := by
  by_cases hm0 : m = 0
  · simp [hm0, roundTo_zero]
  have h2k : (0 : ℚ) < 2 ^ k := by positivity
  have hx : (m : ℚ) * 2 ^ k ≠ 0 := by
    apply mul_ne_zero
    · exact_mod_cast hm0
    · exact ne_of_gt h2k
  obtain ⟨hlo, hhi⟩ := log_bounds _ hx
  set e := Int.log 2 |(m : ℚ) * 2 ^ k| with he
  have habs : |(m : ℚ) * 2 ^ k| = |(m : ℚ)| * 2 ^ k := by
    rw [abs_mul, abs_of_pos h2k]
  have hmq : |(m : ℚ)| < 2 ^ p := by
    have : ((|m| : ℤ) : ℚ) < ((2 ^ p : ℤ) : ℚ) := by exact_mod_cast hm
    simpa using this
  have hlt : (2 : ℚ) ^ e < (2 : ℚ) ^ ((p : ℤ) + k) := by
    calc (2 : ℚ) ^ e ≤ |(m : ℚ)| * 2 ^ k := by rw [← habs]; exact hlo
      _ < 2 ^ p * 2 ^ k := by
          apply mul_lt_mul_of_pos_right hmq h2k
      _ = (2 : ℚ) ^ ((p : ℤ) + k) := by
          rw [zpow_add₀ (by norm_num : (2 : ℚ) ≠ 0)]; simp
  have hj : e < (p : ℤ) + k := two_zpow_lt_imp _ _ hlt
  rw [roundTo_of_log p _ e hlo hhi]
  obtain ⟨j, hjeq⟩ : ∃ j : ℕ, (j : ℤ) = k - (e - p + 1) := ⟨(k - (e - p + 1)).toNat, by omega⟩
  have hk : k = (j : ℤ) + (e - p + 1) := by omega
  have hu : (0 : ℚ) < 2 ^ (e - p + 1) := by positivity
  have h2 : (2 : ℚ) ^ k = 2 ^ j * 2 ^ (e - p + 1) := by
    have h := zpow_add₀ (by norm_num : (2 : ℚ) ≠ 0) (j : ℤ) (e - p + 1)
    rw [← hk, zpow_natCast] at h
    exact h
  have hdiv : (m : ℚ) * 2 ^ k / 2 ^ (e - p + 1) = ((m * 2 ^ j : ℤ) : ℚ) := by
    rw [h2]
    field_simp
    ring
  rw [hdiv, roundHalfEven_intCast, h2]
  push_cast
  ring

theorem roundTo_idem (p : ℕ) (hp : 0 < p) (x : ℚ) : roundTo p (roundTo p x) = roundTo p x := by
  by_cases hx : x = 0
  · simp [hx, roundTo_zero]
  obtain ⟨hlo, hhi⟩ := log_bounds x hx
  set e := Int.log 2 |x| with he
  rw [roundTo_of_log p x e hlo hhi]
  have hu : (0 : ℚ) < 2 ^ (e - p + 1) := by positivity
  have hup : (2 : ℚ) ^ (e + 1) = 2 ^ p * 2 ^ (e - p + 1) := by
    have h := zpow_add₀ (by norm_num : (2 : ℚ) ≠ 0) (p : ℤ) (e - p + 1)
    rw [zpow_natCast] at h
    rw [← h]
    congr 1
    ring
  have hy : |x / 2 ^ (e - p + 1)| ≤ 2 ^ p := by
    rw [abs_div, abs_of_pos hu, div_le_iff₀ hu, ← hup]
    exact le_of_lt hhi
  obtain ⟨hy1, hy2⟩ := abs_le.mp hy
  have hn1 : -(2 ^ p : ℤ) ≤ roundHalfEven (x / 2 ^ (e - p + 1)) :=
    roundHalfEven_lower _ _ (by push_cast; exact hy1)
  have hn2 : roundHalfEven (x / 2 ^ (e - p + 1)) ≤ (2 ^ p : ℤ) :=
    roundHalfEven_upper _ _ (by push_cast; exact hy2)
  set n := roundHalfEven (x / 2 ^ (e - p + 1)) with hn
  have hone : |(1 : ℤ)| < 2 ^ p := by
    rw [abs_one]
    exact one_lt_pow₀ (by norm_num) (by omega)
  have hmone : |(-1 : ℤ)| < 2 ^ p := by
    rw [abs_neg]
    exact hone
  have hcases : |n| < 2 ^ p ∨ n = 2 ^ p ∨ n = -(2 ^ p) := by
    rcases lt_or_eq_of_le hn2 with h | h
    · rcases lt_or_eq_of_le hn1 with h2 | h2
      · left
        exact abs_lt.mpr ⟨h2, h⟩
      · right; right
        exact h2.symm
    · right; left
      exact h
  rcases hcases with h | h | h
  · exact roundTo_dyadic p n (e - p + 1) h
  · have hrw : (n : ℚ) * 2 ^ (e - p + 1) = ((1 : ℤ) : ℚ) * 2 ^ (e + 1) := by
      rw [h, hup]
      push_cast
      ring
    rw [hrw]
    exact roundTo_dyadic p 1 (e + 1) hone
  · have hrw : (n : ℚ) * 2 ^ (e - p + 1) = ((-1 : ℤ) : ℚ) * 2 ^ (e + 1) := by
      rw [h, hup]
      push_cast
      ring
    rw [hrw]
    exact roundTo_dyadic p (-1) (e + 1) hmone

theorem roundTo_near (p : ℕ) (x : ℚ) (e n : ℤ) (h1 : (2 : ℚ) ^ e ≤ |x|)
    (h2 : |x| < (2 : ℚ) ^ (e + 1)) (h3 : (n : ℚ) - 1 / 2 < x / 2 ^ (e - p + 1))
    (h4 : x / 2 ^ (e - p + 1) < (n : ℚ) + 1 / 2) :
    roundTo p x = (n : ℚ) * 2 ^ (e - p + 1) := by
  rw [roundTo_of_log p x e h1 h2, roundHalfEven_eq_of_near _ n h3 h4]


/-! ## Runs -/

@[simp]
theorem Run.after_trace (es : List Event) (r : Run) :
    (Run.after es r).trace = es ++ r.trace := rfl

@[simp]
theorem Run.after_exitCode (es : List Event) (r : Run) :
    (Run.after es r).exitCode = r.exitCode := rfl

@[simp]
theorem fatalf_trace (f e : String) : (fatalf f e).trace = [.fatalf f e] := rfl

@[simp]
theorem fatalf_exitCode (f e : String) : (fatalf f e).exitCode = 1 := rfl

@[simp]
theorem nilDereference_trace : nilDereference.trace = [.nilDereference] := rfl

@[simp]
theorem nilDereference_exitCode : nilDereference.exitCode = 2 := rfl

theorem Run.after_after (es fs : List Event) (r : Run) :
    Run.after es (Run.after fs r) = Run.after (es ++ fs) r := by
  simp [Run.after]

theorem Run.after_nil (r : Run) : Run.after [] r = r := rfl

theorem logCalls_stage (labels : List types.CustomLabel) : ∀ e ∈ logCalls labels, e.stage = 0 := by
  induction labels with
  | nil => simp [logCalls]
  | cons label rest ih =>
    intro e he
    cases hn : label.name with
    | none => simp [logCalls, hn] at he
    | some name =>
      cases hc : label.confidence with
      | none => simp [logCalls, hn, hc] at he
      | some confidence =>
        simp only [logCalls, hn, hc, List.mem_cons] at he
        rcases he with h1 | h1
        · rw [h1]; rfl
        · exact ih e h1

theorem logLabels_named (k : Run) (labels : List types.CustomLabel)
    (h : ∀ l ∈ labels, l.name ≠ none ∧ l.confidence ≠ none) :
    logLabels k labels = Run.after (logCalls labels) k := by
  induction labels with
  | nil => rfl
  | cons label rest ih =>
    have h1 := h label (by simp)
    have h2 := ih (fun l hl => h l (List.mem_cons_of_mem _ hl))
    cases hn : label.name with
    | none => exact absurd hn h1.1
    | some name =>
      cases hc : label.confidence with
      | none => exact absurd hc h1.2
      | some confidence =>
        simp [logLabels, logCalls, hn, hc, h2, Run.after_after]

theorem named_or_not (labels : List types.CustomLabel) :
    (∀ l ∈ labels, l.name ≠ none ∧ l.confidence ≠ none) ∨
      (∃ l ∈ labels, l.name = none ∨ l.confidence = none) := by
  by_cases h : ∀ l ∈ labels, l.name ≠ none ∧ l.confidence ≠ none
  · exact Or.inl h
  · right
    push_neg at h
    obtain ⟨l, hl, h2⟩ := h
    refine ⟨l, hl, ?_⟩
    by_cases hn : l.name = none
    · exact Or.inl hn
    · exact Or.inr (h2 hn)

theorem drawLabel_width (w : World) (c : gg.Context) (name : String) (x y wd h : ℚ) :
    (drawLabel w c name x y wd h).width = c.width := rfl

theorem drawLabel_height (w : World) (c : gg.Context) (name : String) (x y wd h : ℚ) :
    (drawLabel w c name x y wd h).height = c.height := rfl

theorem annotationCalls_stage (W H : ℤ) (labels : List types.CustomLabel) :
    ∀ (i : ℕ), ∀ e ∈ annotationCalls W H i labels, e.stage = 0 ∨ e.stage = 7 := by
  induction labels with
  | nil => simp [annotationCalls]
  | cons label rest ih =>
    intro i e he
    cases hb : boundingBoxFields label with
    | none => simp [annotationCalls, hb] at he
    | some box =>
      obtain ⟨l, t, bw, bh⟩ := box
      cases hn : label.name with
      | none => simp [annotationCalls, hb, hn] at he
      | some name =>
        simp only [annotationCalls, hb, hn, List.mem_append] at he
        rcases he with h1 | h1
        · simp only [iterationCalls, List.mem_cons, List.mem_singleton, List.not_mem_nil,
            or_false] at h1
          rcases h1 with h1 | h1 | h1 | h1 | h1 | h1 | h1 | h1 | h1 <;> rw [h1] <;>
            simp [Event.stage]
        · exact ih (i + 1) e h1

theorem logLabels_nil (labels : List types.CustomLabel)
    (h : ∃ l ∈ labels, l.name = none ∨ l.confidence = none) :
    ∀ k : Run, logLabels k labels = Run.after (logCalls labels) nilDereference := by
  induction labels with
  | nil => simp at h
  | cons label rest ih =>
    intro k
    cases hn : label.name with
    | none => simp [logLabels, logCalls, hn, Run.after_nil]
    | some name =>
      cases hc : label.confidence with
      | none => simp [logLabels, logCalls, hn, hc, Run.after_nil]
      | some confidence =>
        obtain ⟨l, hl, hl2⟩ := h
        rcases List.mem_cons.mp hl with h3 | h3
        · rw [h3, hn, hc] at hl2
          simp at hl2
        · simp [logLabels, logCalls, hn, hc, ih ⟨l, h3, hl2⟩ k, Run.after_after]

theorem annotate_complete (w : World) (labels : List types.CustomLabel)
    (h : ∀ l ∈ labels, boundingBoxFields l ≠ none ∧ l.name ≠ none) :
    ∀ (c : gg.Context) (i : ℕ) (k : gg.Context → Run),
      annotate w k c i labels =
        Run.after (annotationCalls c.width c.height i labels)
          (k (annotatedContext w c labels)) := by
  induction labels with
  | nil =>
    intro c i k
    rfl
  | cons label rest ih =>
    intro c i k
    have h1 := h label (by simp)
    have ih1 := ih (fun l hl => h l (List.mem_cons_of_mem _ hl))
    cases hb : boundingBoxFields label with
    | none => exact absurd hb h1.1
    | some box =>
      obtain ⟨l, t, bw, bh⟩ := box
      cases hn : label.name with
      | none => exact absurd hn h1.2
      | some name =>
        simp only [annotate, annotationCalls, annotatedContext, hb, hn]
        rw [ih1, Run.after_after, drawLabel_width, drawLabel_height]

theorem annotate_nil (w : World) (labels : List types.CustomLabel)
    (h : ∃ l ∈ labels, boundingBoxFields l = none ∨ l.name = none) :
    ∀ (c : gg.Context) (i : ℕ) (k : gg.Context → Run),
      annotate w k c i labels =
        Run.after (annotationCalls c.width c.height i labels) nilDereference := by
  induction labels with
  | nil => simp at h
  | cons label rest ih =>
    intro c i k
    cases hb : boundingBoxFields label with
    | none => simp [annotate, annotationCalls, hb, Run.after_nil]
    | some box =>
      obtain ⟨l, t, bw, bh⟩ := box
      cases hn : label.name with
      | none => simp [annotate, annotationCalls, hb, hn, Run.after_nil]
      | some name =>
        obtain ⟨l1, hl, hl2⟩ := h
        rcases List.mem_cons.mp hl with h3 | h3
        · rw [h3, hb, hn] at hl2
          simp at hl2
        · simp only [annotate, annotationCalls, hb, hn]
          rw [ih ⟨l1, h3, hl2⟩, Run.after_after, drawLabel_width, drawLabel_height]

theorem boxed_or_not (labels : List types.CustomLabel) :
    (∀ l ∈ labels, boundingBoxFields l ≠ none) ∨ (∃ l ∈ labels, boundingBoxFields l = none) := by
  by_cases h : ∀ l ∈ labels, boundingBoxFields l ≠ none
  · exact Or.inl h
  · right
    push_neg at h
    exact h

theorem loopContext_width (i : image.Image) (face : String) :
    (loopContext i face).width = i.width := rfl

theorem loopContext_height (i : image.Image) (face : String) :
    (loopContext i face).height = i.height := rfl

theorem save_cases (w : World) (c : gg.Context) :
    (∃ err, w.savePNG "output.png" c.im = some err ∧
        save w c = ⟨[.savePNG "output.png" c.im, .fatalf "error saving image: %v" err], 1⟩) ∨
      (w.savePNG "output.png" c.im = none ∧ save w c = ⟨[.savePNG "output.png" c.im], 0⟩) := by
  cases hs : w.savePNG "output.png" c.im with
  | none =>
    right
    simp [save, hs, Run.after]
  | some err =>
    left
    exact ⟨err, rfl, by simp [save, hs, Run.after, fatalf]⟩

theorem main_outcome (args : List Arg) (w : World) : Outcome args w (main args w) := by
  cases hp : flagParse commandLine args with
  | error code =>
    have := @Outcome.flagError args w code hp
    simpa [main, hp] using this
  | ok fs =>
    cases hc : w.loadDefaultConfig with
    | error err =>
      have := Outcome.configError fs err hp hc
      simpa [main, hp, hc, Run.after, fatalf] using this
    | ok cfg =>
      cases hd : w.detectCustomLabels cfg (detectInput fs) with
      | error err =>
        have := Outcome.detectError fs cfg err hp hc hd
        simpa [main, hp, hc, detect, hd, Run.after, fatalf] using this
      | ok resp =>
        rcases named_or_not resp.customLabels with hl | hl
        · have hlog := fun k => logLabels_named k resp.customLabels hl
          cases hg : w.getObject cfg (getObjectInput fs) with
          | error err =>
            have := Outcome.fetchError fs cfg resp err hp hc hd hl hg
            simpa [main, hp, hc, detect, hd, hlog, retrieve, hg, Run.after, fatalf,
              callsToLog] using this
          | ok body =>
            cases hi : w.decode body with
            | error err =>
              have := Outcome.decodeError fs cfg resp body err hp hc hd hl hg hi
              simpa [main, hp, hc, detect, hd, hlog, retrieve, hg, hi, Run.after, fatalf,
                callsToLog] using this
            | ok i =>
              cases hf : w.loadFontFace "/Library/Fonts/Arial Unicode.ttf" 100 with
              | error err =>
                have := Outcome.fontError fs cfg resp body i err hp hc hd hl hg hi hf
                simpa [main, hp, hc, detect, hd, hlog, retrieve, hg, hi, draw, hf, Run.after,
                  fatalf, callsToLog] using this
              | ok face =>
                have hctx : (((gg.NewContextForImage i).LoadFontFace face).SetRGB 1 0 0).SetLineWidth
                    10 = loopContext i face := rfl
                rcases boxed_or_not resp.customLabels with hb | hb
                · have h1 := annotate_complete w resp.customLabels
                    (fun l hl1 => ⟨hb l hl1, (hl l hl1).1⟩) (loopContext i face) 0 (save w)
                  rw [loopContext_width, loopContext_height] at h1
                  rcases save_cases w (annotatedContext w (loopContext i face) resp.customLabels)
                    with ⟨err, hs, h2⟩ | ⟨hs, h2⟩
                  · have := Outcome.saveError fs cfg resp body i face err hp hc hd hl hg hi hf hb hs
                    simpa [main, hp, hc, detect, hd, hlog, retrieve, hg, hi, draw, hf, hctx, h1,
                      h2, Run.after, callsToLog, callsToSave] using this
                  · have := Outcome.saved fs cfg resp body i face hp hc hd hl hg hi hf hb hs
                    simpa [main, hp, hc, detect, hd, hlog, retrieve, hg, hi, draw, hf, hctx, h1,
                      h2, Run.after, callsToLog, callsToSave] using this
                · have h1 := annotate_nil w resp.customLabels
                    (hb.imp fun l hl1 => ⟨hl1.1, Or.inl hl1.2⟩) (loopContext i face) 0 (save w)
                  rw [loopContext_width, loopContext_height] at h1
                  have := Outcome.drawNil fs cfg resp body i face hp hc hd hl hg hi hf hb
                  simpa [main, hp, hc, detect, hd, hlog, retrieve, hg, hi, draw, hf, hctx, h1,
                    Run.after, nilDereference, callsToLog, callsToSave] using this
        · have h1 := logLabels_nil resp.customLabels hl (retrieve w fs cfg resp)
          have := Outcome.logNil fs cfg resp hp hc hd hl
          simpa [main, hp, hc, detect, hd, h1, Run.after, nilDereference, callsToLog] using this

/-! ## Flags -/

theorem setFlag_cases (b k m : String) (c : ℚ) (a : Arg) (fs : FlagSet)
    (h : setFlag [⟨"bucket", .string b⟩, ⟨"key", .string k⟩, ⟨"model-arn", .string m⟩,
      ⟨"min-confidence", .float64 c⟩] a = .ok fs) :
    ∃ c1, fs = [⟨"bucket", .string (if a.name = "bucket" then a.value else b)⟩,
      ⟨"key", .string (if a.name = "key" then a.value else k)⟩,
      ⟨"model-arn", .string (if a.name = "model-arn" then a.value else m)⟩,
      ⟨"min-confidence", .float64 c1⟩] := by
  by_cases h1 : a.name = "bucket"
  · simp [setFlag, h1, FlagSet.store] at h
    exact ⟨c, by simp [h1, ← h]⟩
  by_cases h2 : a.name = "key"
  · simp [setFlag, h2, FlagSet.store] at h
    exact ⟨c, by simp [h2, ← h]⟩
  by_cases h3 : a.name = "model-arn"
  · simp [setFlag, h3, FlagSet.store] at h
    exact ⟨c, by simp [h3, ← h]⟩
  by_cases h4 : a.name = "min-confidence"
  · cases hv : a.parsed with
    | none => simp [setFlag, h4, hv] at h
    | some v =>
      simp [setFlag, h4, hv, FlagSet.store] at h
      exact ⟨v, by simp [h4, ← h]⟩
  · have e1 : ¬ "bucket" = a.name := fun e => h1 e.symm
    have e2 : ¬ "key" = a.name := fun e => h2 e.symm
    have e3 : ¬ "model-arn" = a.name := fun e => h3 e.symm
    have e4 : ¬ "min-confidence" = a.name := fun e => h4 e.symm
    simp [setFlag, List.find?, e1, e2, e3, e4] at h

theorem flagParse_supplied (args : List Arg) : ∀ (b k m : String) (c : ℚ) (fs : FlagSet),
    flagParse [⟨"bucket", .string b⟩, ⟨"key", .string k⟩, ⟨"model-arn", .string m⟩,
      ⟨"min-confidence", .float64 c⟩] args = .ok fs →
    ∃ c1, fs = [⟨"bucket", .string (supplied "bucket" args b)⟩,
      ⟨"key", .string (supplied "key" args k)⟩,
      ⟨"model-arn", .string (supplied "model-arn" args m)⟩,
      ⟨"min-confidence", .float64 c1⟩] := by
  induction args with
  | nil =>
    intro b k m c fs h
    simp only [flagParse, Except.ok.injEq] at h
    exact ⟨c, by simp [supplied, ← h]⟩
  | cons a rest ih =>
    intro b k m c fs h
    simp only [flagParse] at h
    cases hs : setFlag [⟨"bucket", .string b⟩, ⟨"key", .string k⟩, ⟨"model-arn", .string m⟩,
      ⟨"min-confidence", .float64 c⟩] a with
    | error code => simp [hs] at h
    | ok fs1 =>
      obtain ⟨c1, h1⟩ := setFlag_cases b k m c a fs1 hs
      rw [hs] at h
      simp only at h
      rw [h1] at h
      obtain ⟨c2, h2⟩ := ih _ _ _ _ _ h
      exact ⟨c2, by simp only [supplied, h2]⟩

theorem deref_parsed (args : List Arg) (fs : FlagSet) (h : flagParse commandLine args = .ok fs) :
    derefString fs bucketName = supplied "bucket" args "" ∧
      derefString fs key = supplied "key" args "" ∧
      derefString fs modelArn = supplied "model-arn" args "" := by
  obtain ⟨c1, h1⟩ := flagParse_supplied args "" "" "" 70 fs h
  rw [h1]
  simp [derefString, bucketName, key, modelArn, init20, init21, init22, flagString]

theorem minConfidence_eq : minConfidence = 70 := by
  have h : derefFloat64 init23.1 init23.2 = 70 := rfl
  have h2 := roundTo_dyadic 24 70 0 (by norm_num)
  simp only [minConfidence, h, float32]
  simpa using h2

/-! ## Calls of a run -/

theorem not_mem_of_stage_zero {es : List Event} (hes : ∀ e ∈ es, e.stage = 0) {e : Event}
    (h : e.stage ≠ 0) : e ∉ es :=
  fun he => h (hes e he)

theorem not_mem_of_stage_draw {ds : List Event} (hds : ∀ e ∈ ds, e.stage = 0 ∨ e.stage = 7)
    {e : Event} (h0 : e.stage ≠ 0) (h7 : e.stage ≠ 7) : e ∉ ds := by
  intro he
  rcases hds e he with h | h
  · exact h0 h
  · exact h7 h

theorem outcome_detect {args : List Arg} {w : World} {r : Run}
    {di : rekognition.DetectCustomLabelsInput} (h : Outcome args w r)
    (hm : Event.detectCustomLabels di ∈ r.trace) :
    ∃ fs, flagParse commandLine args = .ok fs ∧ di = detectInput fs := by
  cases h with
  | flagError code hp =>
    simp at hm
  | configError fs err hp hc =>
    simp at hm
  | detectError fs cfg err hp hc hd =>
    simp at hm
    exact ⟨fs, hp, hm⟩
  | logNil fs cfg resp hp hc hd hl =>
    have n1 := @not_mem_of_stage_zero _ (logCalls_stage resp.customLabels) (Event.detectCustomLabels di)
      (by simp [Event.stage])
    simp [callsToLog, n1] at hm
    exact ⟨fs, hp, hm⟩
  | fetchError fs cfg resp err hp hc hd hl hg =>
    have n1 := @not_mem_of_stage_zero _ (logCalls_stage resp.customLabels) (Event.detectCustomLabels di)
      (by simp [Event.stage])
    simp [callsToLog, n1] at hm
    exact ⟨fs, hp, hm⟩
  | decodeError fs cfg resp body err hp hc hd hl hg hi =>
    have n1 := @not_mem_of_stage_zero _ (logCalls_stage resp.customLabels) (Event.detectCustomLabels di)
      (by simp [Event.stage])
    simp [callsToLog, n1] at hm
    exact ⟨fs, hp, hm⟩
  | fontError fs cfg resp body i err hp hc hd hl hg hi hf =>
    have n1 := @not_mem_of_stage_zero _ (logCalls_stage resp.customLabels) (Event.detectCustomLabels di)
      (by simp [Event.stage])
    simp [callsToLog, n1] at hm
    exact ⟨fs, hp, hm⟩
  | drawNil fs cfg resp body i face hp hc hd hl hg hi hf hb =>
    have n1 := @not_mem_of_stage_zero _ (logCalls_stage resp.customLabels) (Event.detectCustomLabels di)
      (by simp [Event.stage])
    have n2 := @not_mem_of_stage_draw _
      (annotationCalls_stage i.width i.height resp.customLabels 0) (Event.detectCustomLabels di)
      (by simp [Event.stage]) (by simp [Event.stage])
    simp [callsToLog, callsToSave, n1, n2] at hm
    exact ⟨fs, hp, hm⟩
  | saveError fs cfg resp body i face err hp hc hd hl hg hi hf hb hs =>
    have n1 := @not_mem_of_stage_zero _ (logCalls_stage resp.customLabels) (Event.detectCustomLabels di)
      (by simp [Event.stage])
    have n2 := @not_mem_of_stage_draw _
      (annotationCalls_stage i.width i.height resp.customLabels 0) (Event.detectCustomLabels di)
      (by simp [Event.stage]) (by simp [Event.stage])
    simp [callsToLog, callsToSave, n1, n2] at hm
    exact ⟨fs, hp, hm⟩
  | saved fs cfg resp body i face hp hc hd hl hg hi hf hb hs =>
    have n1 := @not_mem_of_stage_zero _ (logCalls_stage resp.customLabels) (Event.detectCustomLabels di)
      (by simp [Event.stage])
    have n2 := @not_mem_of_stage_draw _
      (annotationCalls_stage i.width i.height resp.customLabels 0) (Event.detectCustomLabels di)
      (by simp [Event.stage]) (by simp [Event.stage])
    simp [callsToLog, callsToSave, n1, n2] at hm
    exact ⟨fs, hp, hm⟩

theorem outcome_getObject {args : List Arg} {w : World} {r : Run}
    {gi : s3.GetObjectInput} (h : Outcome args w r)
    (hm : Event.getObject gi ∈ r.trace) :
    ∃ fs, flagParse commandLine args = .ok fs ∧ gi = getObjectInput fs := by
  cases h with
  | flagError code hp =>
    simp at hm
  | configError fs err hp hc =>
    simp at hm
  | detectError fs cfg err hp hc hd =>
    simp at hm
  | logNil fs cfg resp hp hc hd hl =>
    have n1 := @not_mem_of_stage_zero _ (logCalls_stage resp.customLabels) (Event.getObject gi)
      (by simp [Event.stage])
    simp [callsToLog, n1] at hm
  | fetchError fs cfg resp err hp hc hd hl hg =>
    have n1 := @not_mem_of_stage_zero _ (logCalls_stage resp.customLabels) (Event.getObject gi)
      (by simp [Event.stage])
    simp [callsToLog, n1] at hm
    exact ⟨fs, hp, hm⟩
  | decodeError fs cfg resp body err hp hc hd hl hg hi =>
    have n1 := @not_mem_of_stage_zero _ (logCalls_stage resp.customLabels) (Event.getObject gi)
      (by simp [Event.stage])
    simp [callsToLog, n1] at hm
    exact ⟨fs, hp, hm⟩
  | fontError fs cfg resp body i err hp hc hd hl hg hi hf =>
    have n1 := @not_mem_of_stage_zero _ (logCalls_stage resp.customLabels) (Event.getObject gi)
      (by simp [Event.stage])
    simp [callsToLog, n1] at hm
    exact ⟨fs, hp, hm⟩
  | drawNil fs cfg resp body i face hp hc hd hl hg hi hf hb =>
    have n1 := @not_mem_of_stage_zero _ (logCalls_stage resp.customLabels) (Event.getObject gi)
      (by simp [Event.stage])
    have n2 := @not_mem_of_stage_draw _
      (annotationCalls_stage i.width i.height resp.customLabels 0) (Event.getObject gi)
      (by simp [Event.stage]) (by simp [Event.stage])
    simp [callsToLog, callsToSave, n1, n2] at hm
    exact ⟨fs, hp, hm⟩
  | saveError fs cfg resp body i face err hp hc hd hl hg hi hf hb hs =>
    have n1 := @not_mem_of_stage_zero _ (logCalls_stage resp.customLabels) (Event.getObject gi)
      (by simp [Event.stage])
    have n2 := @not_mem_of_stage_draw _
      (annotationCalls_stage i.width i.height resp.customLabels 0) (Event.getObject gi)
      (by simp [Event.stage]) (by simp [Event.stage])
    simp [callsToLog, callsToSave, n1, n2] at hm
    exact ⟨fs, hp, hm⟩
  | saved fs cfg resp body i face hp hc hd hl hg hi hf hb hs =>
    have n1 := @not_mem_of_stage_zero _ (logCalls_stage resp.customLabels) (Event.getObject gi)
      (by simp [Event.stage])
    have n2 := @not_mem_of_stage_draw _
      (annotationCalls_stage i.width i.height resp.customLabels 0) (Event.getObject gi)
      (by simp [Event.stage]) (by simp [Event.stage])
    simp [callsToLog, callsToSave, n1, n2] at hm
    exact ⟨fs, hp, hm⟩

/-! ## The annotation loop -/

theorem main_annotates (args : List Arg) (w : World) (fs : FlagSet) (cfg : String)
    (resp : rekognition.DetectCustomLabelsOutput) (body : List ℕ) (i : image.Image)
    (face : String) (hp : flagParse commandLine args = .ok fs)
    (hc : w.loadDefaultConfig = .ok cfg)
    (hd : w.detectCustomLabels cfg (detectInput fs) = .ok resp)
    (hl : ∀ l ∈ resp.customLabels, l.name ≠ none ∧ l.confidence ≠ none)
    (hg : w.getObject cfg (getObjectInput fs) = .ok body) (hi : w.decode body = .ok i)
    (hf : w.loadFontFace "/Library/Fonts/Arial Unicode.ttf" 100 = .ok face) :
    main args w = Run.after (callsToLog fs resp ++
        [.getObject (getObjectInput fs), .decode body, .newContextForImage i,
         .loadFontFace "/Library/Fonts/Arial Unicode.ttf" 100, .setRGB 1 0 0, .setLineWidth 10])
      (annotate w (save w) (loopContext i face) 0 resp.customLabels) := by
  have hlog := fun k => logLabels_named k resp.customLabels hl
  simp [main, hp, hc, detect, hd, hlog, retrieve, hg, hi, draw, hf, Run.after, callsToLog,
    loopContext]

theorem rectangles_append (es fs : List Event) :
    rectangles (es ++ fs) = rectangles es ++ rectangles fs := by
  induction es with
  | nil => rfl
  | cons e rest ih => cases e <;> simp [rectangles, ih]

theorem texts_append (es fs : List Event) : texts (es ++ fs) = texts es ++ texts fs := by
  induction es with
  | nil => rfl
  | cons e rest ih => cases e <;> simp [texts, ih]

theorem savedImages_append (es fs : List Event) :
    savedImages (es ++ fs) = savedImages es ++ savedImages fs := by
  induction es with
  | nil => rfl
  | cons e rest ih => cases e <;> simp [savedImages, ih]

theorem rectangles_logCalls (labels : List types.CustomLabel) :
    rectangles (logCalls labels) = [] := by
  induction labels with
  | nil => rfl
  | cons label rest ih =>
    cases hn : label.name <;> cases hc : label.confidence <;>
      simp [logCalls, hn, hc, rectangles, ih]

theorem texts_logCalls (labels : List types.CustomLabel) : texts (logCalls labels) = [] := by
  induction labels with
  | nil => rfl
  | cons label rest ih =>
    cases hn : label.name <;> cases hc : label.confidence <;>
      simp [logCalls, hn, hc, texts, ih]

theorem savedImages_logCalls (labels : List types.CustomLabel) :
    savedImages (logCalls labels) = [] := by
  induction labels with
  | nil => rfl
  | cons label rest ih =>
    cases hn : label.name <;> cases hc : label.confidence <;>
      simp [logCalls, hn, hc, savedImages, ih]

theorem rectangles_annotationCalls (W H : ℤ) (labels : List types.CustomLabel)
    (h : ∀ l ∈ labels, boundingBoxFields l ≠ none ∧ l.name ≠ none) :
    ∀ i, rectangles (annotationCalls W H i labels) = labels.filterMap (labelRectangle W H) := by
  induction labels with
  | nil => intro i; rfl
  | cons label rest ih =>
    intro i
    have h1 := h label (by simp)
    have ih1 := ih (fun l hl => h l (List.mem_cons_of_mem _ hl)) (i + 1)
    cases hb : boundingBoxFields label with
    | none => exact absurd hb h1.1
    | some box =>
      obtain ⟨l, t, bw, bh⟩ := box
      cases hn : label.name with
      | none => exact absurd hn h1.2
      | some name =>
        simp [annotationCalls, hb, hn, iterationCalls, rectangles, ih1, labelRectangle]

theorem texts_annotationCalls (W H : ℤ) (labels : List types.CustomLabel)
    (h : ∀ l ∈ labels, boundingBoxFields l ≠ none ∧ l.name ≠ none) :
    ∀ i, texts (annotationCalls W H i labels) = labels.filterMap (labelText W H) := by
  induction labels with
  | nil => intro i; rfl
  | cons label rest ih =>
    intro i
    have h1 := h label (by simp)
    have ih1 := ih (fun l hl => h l (List.mem_cons_of_mem _ hl)) (i + 1)
    cases hb : boundingBoxFields label with
    | none => exact absurd hb h1.1
    | some box =>
      obtain ⟨l, t, bw, bh⟩ := box
      cases hn : label.name with
      | none => exact absurd hn h1.2
      | some name =>
        simp [annotationCalls, hb, hn, iterationCalls, texts, ih1, labelText]

theorem savedImages_annotationCalls (W H : ℤ) (labels : List types.CustomLabel) :
    ∀ i, savedImages (annotationCalls W H i labels) = [] := by
  induction labels with
  | nil => intro i; rfl
  | cons label rest ih =>
    intro i
    cases hb : boundingBoxFields label with
    | none => simp [annotationCalls, hb, savedImages]
    | some box =>
      obtain ⟨l, t, bw, bh⟩ := box
      cases hn : label.name with
      | none => simp [annotationCalls, hb, hn, savedImages]
      | some name =>
        simp [annotationCalls, hb, hn, iterationCalls, savedImages, savedImages_append, ih]

theorem filterMap_getElem_of_isSome {α β : Type} (f : α → Option β) (xs : List α)
    (h : ∀ x ∈ xs, f x ≠ none) :
    ∀ (k : ℕ) (x : α), xs[k]? = some x → (xs.filterMap f)[k]? = f x := by
  induction xs with
  | nil => intro k x hx; simp at hx
  | cons y rest ih =>
    intro k x hx
    have hy := h y (by simp)
    cases hfy : f y with
    | none => exact absurd hfy hy
    | some b =>
      cases k with
      | zero =>
        simp only [List.getElem?_cons_zero, Option.some.injEq] at hx
        subst hx
        simp [List.filterMap_cons, hfy]
      | succ k =>
        simp only [List.getElem?_cons_succ] at hx
        simp only [List.filterMap_cons, hfy, List.getElem?_cons_succ]
        exact ih (fun x hx => h x (List.mem_cons_of_mem _ hx)) k x hx

theorem filterMap_length_of_isSome {α β : Type} (f : α → Option β) (xs : List α)
    (h : ∀ x ∈ xs, f x ≠ none) : (xs.filterMap f).length = xs.length := by
  induction xs with
  | nil => rfl
  | cons y rest ih =>
    have hy := h y (by simp)
    cases hfy : f y with
    | none => exact absurd hfy hy
    | some b =>
      simp [List.filterMap_cons, hfy, ih (fun x hx => h x (List.mem_cons_of_mem _ hx))]

theorem mem_annotationCalls_rectangle (W H : ℤ) (labels : List types.CustomLabel)
    (x y wd h : ℚ) :
    ∀ i, Event.drawRectangle x y wd h ∈ annotationCalls W H i labels →
      ∃ label ∈ labels, labelRectangle W H label = some (x, y, wd, h) := by
  induction labels with
  | nil => intro i hm; simp [annotationCalls] at hm
  | cons label rest ih =>
    intro i hm
    cases hb : boundingBoxFields label with
    | none => simp [annotationCalls, hb] at hm
    | some box =>
      obtain ⟨l, t, bw, bh⟩ := box
      cases hn : label.name with
      | none => simp [annotationCalls, hb, hn] at hm
      | some name =>
        simp only [annotationCalls, hb, hn, List.mem_append] at hm
        rcases hm with h1 | h1
        · simp [iterationCalls] at h1
          refine ⟨label, by simp, ?_⟩
          simp [labelRectangle, hb, h1]
        · obtain ⟨l1, hl1, h2⟩ := ih (i + 1) h1
          exact ⟨l1, List.mem_cons_of_mem _ hl1, h2⟩

/-! ## Arithmetic of the conversions -/

theorem float64_zero : float64 0 = 0 := roundTo_zero 53

theorem float64_one : float64 1 = 1 := by
  have h := roundTo_dyadic 53 1 0 (by norm_num)
  simpa [float64] using h

theorem mulFloat64_zero_left (b : ℚ) : mulFloat64 0 b = 0 := by
  simp [mulFloat64, roundTo_zero]

theorem mulFloat64_one_float64 (x : ℚ) : mulFloat64 1 (float64 x) = float64 x := by
  simp only [mulFloat64, float64, one_mul]
  exact roundTo_idem 53 (by norm_num) x

theorem float64_intCast (n : ℤ) (h : |n| < 2 ^ 53) : float64 (n : ℚ) = n := by
  have h1 := roundTo_dyadic 53 n 0 h
  simpa [float64] using h1

theorem float64_of_isFloat32 (l : ℚ) (h : IsFloat32 l) : float64 l = l := by
  obtain ⟨m, k, hm, rfl⟩ := h
  exact roundTo_dyadic 53 m k (lt_trans hm (by norm_num))

theorem mulFloat64_exact (l : ℚ) (n : ℤ) (h : IsFloat32 l) (hn : |n| < 2 ^ 29) :
    mulFloat64 (float64 l) (float64 (n : ℚ)) = l * n := by
  rw [float64_of_isFloat32 l h, float64_intCast n (lt_trans hn (by norm_num))]
  obtain ⟨m, k, hm, rfl⟩ := h
  have hmn : |m * n| < 2 ^ 53 := by
    rw [abs_mul]
    calc |m| * |n| ≤ |m| * 2 ^ 29 := mul_le_mul_of_nonneg_left (le_of_lt hn) (abs_nonneg m)
      _ < 2 ^ 24 * 2 ^ 29 := mul_lt_mul_of_pos_right hm (by norm_num)
      _ = 2 ^ 53 := by norm_num
  have h1 := roundTo_dyadic 53 (m * n) k hmn
  have e : (m : ℚ) * 2 ^ k * (n : ℚ) = ((m * n : ℤ) : ℚ) * 2 ^ k := by
    push_cast
    ring
  rw [mulFloat64, e]
  exact h1

/-! ## Rectangles of a run -/

theorem outcome_drawRectangle {args : List Arg} {w : World} {r : Run} {x y wd h : ℚ}
    (ho : Outcome args w r) (hm : Event.drawRectangle x y wd h ∈ r.trace) :
    ∃ fs cfg resp body i, flagParse commandLine args = .ok fs ∧
      w.loadDefaultConfig = .ok cfg ∧ w.detectCustomLabels cfg (detectInput fs) = .ok resp ∧
      w.getObject cfg (getObjectInput fs) = .ok body ∧ w.decode body = .ok i ∧
      Event.drawRectangle x y wd h ∈ annotationCalls i.width i.height 0 resp.customLabels := by
  cases ho with
  | flagError code hp =>
    simp at hm
  | configError fs err hp hc =>
    simp at hm
  | detectError fs cfg err hp hc hd =>
    simp at hm
  | logNil fs cfg resp hp hc hd hl =>
    have n1 := @not_mem_of_stage_zero _ (logCalls_stage resp.customLabels) (Event.drawRectangle x y wd h)
      (by simp [Event.stage])
    simp [callsToLog, n1] at hm
  | fetchError fs cfg resp err hp hc hd hl hg =>
    have n1 := @not_mem_of_stage_zero _ (logCalls_stage resp.customLabels) (Event.drawRectangle x y wd h)
      (by simp [Event.stage])
    simp [callsToLog, n1] at hm
  | decodeError fs cfg resp body err hp hc hd hl hg hi =>
    have n1 := @not_mem_of_stage_zero _ (logCalls_stage resp.customLabels) (Event.drawRectangle x y wd h)
      (by simp [Event.stage])
    simp [callsToLog, n1] at hm
  | fontError fs cfg resp body i err hp hc hd hl hg hi hf =>
    have n1 := @not_mem_of_stage_zero _ (logCalls_stage resp.customLabels) (Event.drawRectangle x y wd h)
      (by simp [Event.stage])
    simp [callsToLog, n1] at hm
  | drawNil fs cfg resp body i face hp hc hd hl hg hi hf hb =>
    have n1 := @not_mem_of_stage_zero _ (logCalls_stage resp.customLabels) (Event.drawRectangle x y wd h)
      (by simp [Event.stage])
    simp [callsToLog, callsToSave, n1] at hm
    exact ⟨fs, cfg, resp, body, i, hp, hc, hd, hg, hi, hm⟩
  | saveError fs cfg resp body i face err hp hc hd hl hg hi hf hb hs =>
    have n1 := @not_mem_of_stage_zero _ (logCalls_stage resp.customLabels) (Event.drawRectangle x y wd h)
      (by simp [Event.stage])
    simp [callsToLog, callsToSave, n1] at hm
    exact ⟨fs, cfg, resp, body, i, hp, hc, hd, hg, hi, hm⟩
  | saved fs cfg resp body i face hp hc hd hl hg hi hf hb hs =>
    have n1 := @not_mem_of_stage_zero _ (logCalls_stage resp.customLabels) (Event.drawRectangle x y wd h)
      (by simp [Event.stage])
    simp [callsToLog, callsToSave, n1] at hm
    exact ⟨fs, cfg, resp, body, i, hp, hc, hd, hg, hi, hm⟩

theorem rectangles_save (w : World) (c : gg.Context) : rectangles (save w c).trace = [] := by
  rcases save_cases w c with ⟨err, _, h⟩ | ⟨_, h⟩ <;> rw [h] <;> rfl

theorem texts_save (w : World) (c : gg.Context) : texts (save w c).trace = [] := by
  rcases save_cases w c with ⟨err, _, h⟩ | ⟨_, h⟩ <;> rw [h] <;> rfl

theorem savedImages_save (w : World) (c : gg.Context) :
    savedImages (save w c).trace = [("output.png", c.im)] := by
  rcases save_cases w c with ⟨err, _, h⟩ | ⟨_, h⟩ <;> rw [h] <;> rfl

theorem wellFormed_boxed {labels : List types.CustomLabel} (h : ∀ l ∈ labels, WellFormed l) :
    ∀ l ∈ labels, boundingBoxFields l ≠ none ∧ l.name ≠ none :=
  fun l hl => ⟨(h l hl).2.2, (h l hl).1⟩

theorem wellFormed_named {labels : List types.CustomLabel} (h : ∀ l ∈ labels, WellFormed l) :
    ∀ l ∈ labels, l.name ≠ none ∧ l.confidence ≠ none :=
  fun l hl => ⟨(h l hl).1, (h l hl).2.1⟩

theorem main_complete (args : List Arg) (w : World) (fs : FlagSet) (cfg : String)
    (resp : rekognition.DetectCustomLabelsOutput) (body : List ℕ) (i : image.Image)
    (face : String) (hp : flagParse commandLine args = .ok fs)
    (hc : w.loadDefaultConfig = .ok cfg)
    (hd : w.detectCustomLabels cfg (detectInput fs) = .ok resp)
    (hg : w.getObject cfg (getObjectInput fs) = .ok body) (hi : w.decode body = .ok i)
    (hf : w.loadFontFace "/Library/Fonts/Arial Unicode.ttf" 100 = .ok face)
    (hw : ∀ l ∈ resp.customLabels, WellFormed l) :
    main args w = Run.after (callsToLog fs resp ++ callsToSave fs resp body i)
      (save w (annotatedContext w (loopContext i face) resp.customLabels)) := by
  rw [main_annotates args w fs cfg resp body i face hp hc hd (wellFormed_named hw) hg hi hf,
    annotate_complete w resp.customLabels (wellFormed_boxed hw), loopContext_width,
    loopContext_height, Run.after_after]
  simp [callsToSave]

theorem rectangles_main (args : List Arg) (w : World) (fs : FlagSet) (cfg : String)
    (resp : rekognition.DetectCustomLabelsOutput) (body : List ℕ) (i : image.Image)
    (face : String) (hp : flagParse commandLine args = .ok fs)
    (hc : w.loadDefaultConfig = .ok cfg)
    (hd : w.detectCustomLabels cfg (detectInput fs) = .ok resp)
    (hg : w.getObject cfg (getObjectInput fs) = .ok body) (hi : w.decode body = .ok i)
    (hf : w.loadFontFace "/Library/Fonts/Arial Unicode.ttf" 100 = .ok face)
    (hw : ∀ l ∈ resp.customLabels, WellFormed l) :
    rectangles (main args w).trace =
        resp.customLabels.filterMap (labelRectangle i.width i.height) ∧
      texts (main args w).trace = resp.customLabels.filterMap (labelText i.width i.height) := by
  rw [main_complete args w fs cfg resp body i face hp hc hd hg hi hf hw]
  constructor
  · rw [Run.after_trace, rectangles_append, rectangles_save, List.append_nil]
    simp [rectangles_append, callsToLog, callsToSave, rectangles,
      rectangles_logCalls, rectangles_annotationCalls _ _ _ (wellFormed_boxed hw)]
  · rw [Run.after_trace, texts_append, texts_save, List.append_nil]
    simp [texts_append, callsToLog, callsToSave, texts,
      texts_logCalls, texts_annotationCalls _ _ _ (wellFormed_boxed hw)]



theorem mem_of_mem_rectangles (es : List Event) (r : ℚ × ℚ × ℚ × ℚ)
    (h : r ∈ rectangles es) : Event.drawRectangle r.1 r.2.1 r.2.2.1 r.2.2.2 ∈ es := by
  induction es with
  | nil => simp [rectangles] at h
  | cons e rest ih =>
    cases e with
    | drawRectangle x y wd ht =>
      simp only [rectangles, List.mem_cons] at h
      rcases h with h1 | h1
      · rw [h1]
        exact List.mem_cons_self _ _
      · exact List.mem_cons_of_mem _ (ih h1)
    | _ =>
      simp only [rectangles] at h
      exact List.mem_cons_of_mem _ (ih h)



theorem logCalls_nil_free (labels : List types.CustomLabel) :
    Event.nilDereference ∉ logCalls labels := by
  induction labels with
  | nil => simp [logCalls]
  | cons label rest ih =>
    cases hn : label.name <;> cases hc : label.confidence <;> simp [logCalls, hn, hc, ih]

theorem annotationCalls_nil_free (W H : ℤ) (labels : List types.CustomLabel) :
    ∀ i, Event.nilDereference ∉ annotationCalls W H i labels := by
  induction labels with
  | nil => intro i; simp [annotationCalls]
  | cons label rest ih =>
    intro i
    cases hb : boundingBoxFields label with
    | none => simp [annotationCalls, hb]
    | some box =>
      obtain ⟨l, t, bw, bh⟩ := box
      cases hn : label.name with
      | none => simp [annotationCalls, hb, hn]
      | some name => simp [annotationCalls, hb, hn, iterationCalls, ih]

/-- C1, as the code behaves: whatever the command line supplies as
`--min-confidence`, every request `main` sends to `DetectCustomLabels` carries
`MinConfidence = 70`. Line 23 reads the flag's cell when the flag is
registered, before `flag.Parse` runs, so the parsed value never reaches the
request. -/
theorem minConfidence_sent_is_default (args : List Arg) (w : World)
    (input : rekognition.DetectCustomLabelsInput)
    (h : Event.detectCustomLabels input ∈ (main args w).trace) :
    input.minConfidence = some 70 := by
  obtain ⟨fs, _, h2⟩ := outcome_detect (main_outcome args w) h
  rw [h2]
  simp [detectInput, minConfidence_eq]

/-- C1 at `--min-confidence 50`: the flag parses to 50, which a `float32` holds
exactly, and the request that is sent carries 70, not the parsed value. -/
theorem minConfidence_sent_is_default_witness :
    flagParse commandLine args50 = .ok flags50 ∧
      derefFloat64 flags50 "min-confidence" = 50 ∧
      float32 50 = 50 ∧
      Event.detectCustomLabels (detectInput flags50) ∈
        (main args50 (okWorld [] smallImage)).trace ∧
      (detectInput flags50).minConfidence = some 70 ∧
      (detectInput flags50).minConfidence ≠
        some (float32 (derefFloat64 flags50 "min-confidence")) := by
  have h50 : float32 50 = 50 := by
    simpa [float32] using roundTo_dyadic 24 50 0 (by norm_num)
  have hm : Event.detectCustomLabels (detectInput flags50) ∈
      (main args50 (okWorld [] smallImage)).trace :=
    List.mem_cons_of_mem _ (List.mem_cons_self _ _)
  have h70 := minConfidence_sent_is_default args50 (okWorld [] smallImage)
    (detectInput flags50) hm
  refine ⟨rfl, rfl, h50, hm, h70, ?_⟩
  rw [h70, show derefFloat64 flags50 "min-confidence" = 50 from rfl, h50]
  norm_num

/-- C6: in every run, the image reference sent to `DetectCustomLabels` and the
request sent to `GetObject` name the same bucket and the same key, and these
are the values the command line gives to `--bucket` and `--key` (the empty
string when the flag is absent). -/
theorem detect_and_fetch_same_object (args : List Arg) (w : World)
    (di : rekognition.DetectCustomLabelsInput) (gi : s3.GetObjectInput)
    (hd : Event.detectCustomLabels di ∈ (main args w).trace)
    (hg : Event.getObject gi ∈ (main args w).trace) :
    di.image = some ⟨some ⟨some (supplied "bucket" args ""), some (supplied "key" args "")⟩⟩ ∧
      gi = { bucket := some (supplied "bucket" args ""), key := some (supplied "key" args "") } := by
  obtain ⟨fs, hp, h1⟩ := outcome_detect (main_outcome args w) hd
  obtain ⟨fs2, hp2, h2⟩ := outcome_getObject (main_outcome args w) hg
  rw [hp] at hp2
  cases hp2
  obtain ⟨hb, hk, _⟩ := deref_parsed args fs hp
  rw [h1, h2]
  simp [detectInput, s3Obj, getObjectInput, hb, hk]

/-- C6 on the command line of the scenario: both requests name `photos` and
`cat.jpg`. -/
theorem detect_and_fetch_same_object_witness :
    (detectInput catFlags).image = some ⟨some ⟨some "photos", some "cat.jpg"⟩⟩ ∧
      getObjectInput catFlags = { bucket := some "photos", key := some "cat.jpg" } :=
  detect_and_fetch_same_object catArgs (okWorld [] smallImage) (detectInput catFlags)
    (getObjectInput catFlags) (List.mem_cons_of_mem _ (List.mem_cons_self _ _))
    (List.mem_cons_of_mem _ (List.mem_cons_of_mem _ (List.mem_cons_of_mem _
      (List.mem_cons_self _ _))))

theorem failed_stage {w : World} {ev : Event} {err : String} (h : Failed w ev err) :
    ev.stage ≠ 0 ∧ ev.stage ≠ 7 := by
  cases ev <;> simp [Failed] at h <;> simp [Event.stage]

/-- C4: when one of the five fallible calls before saving (configuration load,
detection, fetch, decoding, font loading) is made and the world answers it with
an error, `main` logs that error in a `log.Fatalf` right after the call and
stops there with exit status 1: the failed call and the fatal log line are the
last two entries of the run, no call of a later stage is made, and `SavePNG` is
never called. -/
theorem stage_failure_aborts (args : List Arg) (w : World) (ev : Event) (err : String)
    (hev : ev ∈ (main args w).trace) (hfail : Failed w ev err) :
    (main args w).exitCode = 1 ∧
      (∃ pre format, (main args w).trace = pre ++ [ev, .fatalf format err]) ∧
      (∀ e ∈ (main args w).trace, e.stage ≤ ev.stage) ∧
      (∀ path im, Event.savePNG path im ∉ (main args w).trace) := by
  have h := main_outcome args w
  generalize main args w = r at h hev ⊢
  obtain ⟨s0, s7⟩ := failed_stage hfail
  cases h with
  | flagError code hp => simp at hev
  | configError fs err1 hp hc =>
    simp only [List.mem_cons, List.mem_singleton, List.not_mem_nil, or_false] at hev
    rcases hev with rfl | rfl
    · simp only [Failed, hc, Except.error.injEq] at hfail
      subst hfail
      exact ⟨rfl, ⟨[], _, rfl⟩, by simp [Event.stage], by simp⟩
    · simp [Failed] at hfail
  | detectError fs cfg err1 hp hc hd =>
    simp only [List.mem_cons, List.mem_singleton, List.not_mem_nil, or_false] at hev
    rcases hev with rfl | rfl | rfl
    · simp [Failed, hc] at hfail
    · simp only [Failed, hc, Except.ok.injEq, exists_eq_left', hd, Except.error.injEq] at hfail
      subst hfail
      exact ⟨rfl, ⟨[.loadDefaultConfig], _, rfl⟩, by simp [Event.stage], by simp⟩
    · simp [Failed] at hfail
  | logNil fs cfg resp hp hc hd hl =>
    have hes := logCalls_stage resp.customLabels
    have n1 := not_mem_of_stage_zero hes s0
    simp only [callsToLog, List.mem_append, List.mem_cons, List.mem_singleton, n1,
      List.not_mem_nil, or_false, false_or] at hev
    rcases hev with (rfl | rfl | rfl) | rfl <;> simp [Failed, hc, hd] at hfail
  | fetchError fs cfg resp err1 hp hc hd hl hg =>
    have hes := logCalls_stage resp.customLabels
    have n1 := not_mem_of_stage_zero hes s0
    simp only [callsToLog, List.mem_append, List.mem_cons, List.mem_singleton, n1,
      List.not_mem_nil, or_false, false_or] at hev
    rcases hev with (rfl | rfl | rfl) | rfl | rfl
    · simp [Failed, hc] at hfail
    · simp [Failed, hc, hd] at hfail
    · simp [Failed] at hfail
    · simp only [Failed, hc, Except.ok.injEq, exists_eq_left', hg, Except.error.injEq] at hfail
      subst hfail
      refine ⟨rfl, ⟨callsToLog fs resp, _, rfl⟩, ?_, ?_⟩
      · intro e he
        simp only [callsToLog, List.mem_append, List.mem_cons, List.mem_singleton,
          List.not_mem_nil, or_false] at he
        rcases he with ((rfl | rfl | rfl) | he) | rfl | rfl
        all_goals first | (rw [hes e he]; exact Nat.zero_le _) | simp [Event.stage]
      · intro path im he
        have n2 := @not_mem_of_stage_zero _ hes (.savePNG path im) (by simp [Event.stage])
        simp [callsToLog, n2] at he
    · simp [Failed] at hfail
  | decodeError fs cfg resp body err1 hp hc hd hl hg hi =>
    have hes := logCalls_stage resp.customLabels
    have n1 := not_mem_of_stage_zero hes s0
    simp only [callsToLog, List.mem_append, List.mem_cons, List.mem_singleton, n1,
      List.not_mem_nil, or_false, false_or] at hev
    rcases hev with (rfl | rfl | rfl) | rfl | rfl | rfl
    · simp [Failed, hc] at hfail
    · simp [Failed, hc, hd] at hfail
    · simp [Failed] at hfail
    · simp [Failed, hc, hg] at hfail
    · simp only [Failed, hi, Except.error.injEq] at hfail
      subst hfail
      refine ⟨rfl, ⟨callsToLog fs resp ++ [.getObject (getObjectInput fs)],
        "can\x27t decode image: %v", by simp⟩, ?_, ?_⟩
      · intro e he
        simp only [callsToLog, List.mem_append, List.mem_cons, List.mem_singleton,
          List.not_mem_nil, or_false] at he
        rcases he with ((rfl | rfl | rfl) | he) | rfl | rfl | rfl
        all_goals first | (rw [hes e he]; exact Nat.zero_le _) | simp [Event.stage]
      · intro path im he
        have n2 := @not_mem_of_stage_zero _ hes (.savePNG path im) (by simp [Event.stage])
        simp [callsToLog, n2] at he
    · simp [Failed] at hfail
  | fontError fs cfg resp body i err1 hp hc hd hl hg hi hf =>
    have hes := logCalls_stage resp.customLabels
    have n1 := not_mem_of_stage_zero hes s0
    simp only [callsToLog, List.mem_append, List.mem_cons, List.mem_singleton, n1,
      List.not_mem_nil, or_false, false_or] at hev
    rcases hev with (rfl | rfl | rfl) | rfl | rfl | rfl | rfl | rfl
    · simp [Failed, hc] at hfail
    · simp [Failed, hc, hd] at hfail
    · simp [Failed] at hfail
    · simp [Failed, hc, hg] at hfail
    · simp [Failed, hi] at hfail
    · simp [Failed] at hfail
    · simp only [Failed, hf, Except.error.injEq] at hfail
      subst hfail
      refine ⟨rfl, ⟨callsToLog fs resp ++ [.getObject (getObjectInput fs), .decode body,
        .newContextForImage i], "Unable to load font: %v", by simp⟩, ?_, ?_⟩
      · intro e he
        simp only [callsToLog, List.mem_append, List.mem_cons, List.mem_singleton,
          List.not_mem_nil, or_false] at he
        rcases he with ((rfl | rfl | rfl) | he) | rfl | rfl | rfl | rfl | rfl
        all_goals first | (rw [hes e he]; exact Nat.zero_le _) | simp [Event.stage]
      · intro path im he
        have n2 := @not_mem_of_stage_zero _ hes (.savePNG path im) (by simp [Event.stage])
        simp [callsToLog, n2] at he
    · simp [Failed] at hfail
  | drawNil fs cfg resp body i face hp hc hd hl hg hi hf hb =>
    have n1 := not_mem_of_stage_zero (logCalls_stage resp.customLabels) s0
    have n2 := not_mem_of_stage_draw
      (annotationCalls_stage i.width i.height resp.customLabels 0) s0 s7
    simp only [callsToLog, callsToSave, List.mem_append, List.mem_cons, List.mem_singleton, n1,
      n2, List.not_mem_nil, or_false, false_or] at hev
    rcases hev with ((rfl | rfl | rfl) | rfl | rfl | rfl | rfl | rfl | rfl) | rfl <;>
      simp [Failed, hc, hd, hg, hi, hf] at hfail
  | saveError fs cfg resp body i face err1 hp hc hd hl hg hi hf hb hs =>
    have n1 := not_mem_of_stage_zero (logCalls_stage resp.customLabels) s0
    have n2 := not_mem_of_stage_draw
      (annotationCalls_stage i.width i.height resp.customLabels 0) s0 s7
    simp only [callsToLog, callsToSave, List.mem_append, List.mem_cons, List.mem_singleton, n1,
      n2, List.not_mem_nil, or_false, false_or] at hev
    rcases hev with ((rfl | rfl | rfl) | rfl | rfl | rfl | rfl | rfl | rfl) | rfl | rfl <;>
      simp [Failed, hc, hd, hg, hi, hf] at hfail
  | saved fs cfg resp body i face hp hc hd hl hg hi hf hb hs =>
    have n1 := not_mem_of_stage_zero (logCalls_stage resp.customLabels) s0
    have n2 := not_mem_of_stage_draw
      (annotationCalls_stage i.width i.height resp.customLabels 0) s0 s7
    simp only [callsToLog, callsToSave, List.mem_append, List.mem_cons, List.mem_singleton, n1,
      n2, List.not_mem_nil, or_false, false_or] at hev
    rcases hev with ((rfl | rfl | rfl) | rfl | rfl | rfl | rfl | rfl | rfl) | rfl <;>
      simp [Failed, hc, hd, hg, hi, hf] at hfail

/-- C4 when the key is not found: the run ends with the failed `GetObject` and
the fatal log line, exits with 1 and never calls `SavePNG`. -/
theorem stage_failure_aborts_witness :
    (main catArgs noSuchKeyWorld).exitCode = 1 ∧
      (∃ pre format, (main catArgs noSuchKeyWorld).trace =
        pre ++ [.getObject (getObjectInput catFlags), .fatalf format "NoSuchKey"]) ∧
      (∀ e ∈ (main catArgs noSuchKeyWorld).trace,
        e.stage ≤ (Event.getObject (getObjectInput catFlags)).stage) ∧
      (∀ path im, Event.savePNG path im ∉ (main catArgs noSuchKeyWorld).trace) :=
  stage_failure_aborts catArgs noSuchKeyWorld (.getObject (getObjectInput catFlags)) "NoSuchKey"
    (List.mem_cons_of_mem _ (List.mem_cons_of_mem _ (List.mem_cons_of_mem _
      (List.mem_cons_self _ _))))
    ⟨"us-east-1", rfl, rfl⟩

theorem twoLabels_wellFormed : ∀ l ∈ twoLabels.customLabels, WellFormed l := by
  intro l hl
  simp only [twoLabels, List.mem_cons, List.mem_singleton, List.not_mem_nil, or_false] at hl
  rcases hl with rfl | rfl <;>
    simp [WellFormed, fullLabel, halfLabel, boundingBoxFields]

/-- C2: in a run that decodes the image `i`, every rectangle passed to
`DrawRectangle` is the bounding box `(l, t, bw, bh)` of a label of the response
scaled as `(float64(l) * float64(W), float64(t) * float64(H), float64(bw) *
float64(W), float64(bh) * float64(H))`, where `W` and `H` are the width and the
height of `i` itself; when the font loads and the labels are well-formed every
label gets this rectangle, and the box `(0, 0, 1, 1)` gets `(0, 0, float64(W),
float64(H))`. The conversions are exact for the values at hand: `float64(n)` is
`n` for an integer below `2 ^ 53`, and for a `float32` field and a dimension
below `2 ^ 29` the `float64` product is the product of the two numbers. -/
theorem rectangle_scaled_by_decoded_image (args : List Arg) (w : World) (fs : FlagSet)
    (cfg : String) (resp : rekognition.DetectCustomLabelsOutput) (body : List ℕ)
    (i : image.Image) (hp : flagParse commandLine args = .ok fs)
    (hc : w.loadDefaultConfig = .ok cfg)
    (hd : w.detectCustomLabels cfg (detectInput fs) = .ok resp)
    (hg : w.getObject cfg (getObjectInput fs) = .ok body) (hi : w.decode body = .ok i) :
    (∀ x y wd h, Event.drawRectangle x y wd h ∈ (main args w).trace →
        ∃ label ∈ resp.customLabels, ∃ l t bw bh,
          boundingBoxFields label = some (l, t, bw, bh) ∧
          x = mulFloat64 (float64 l) (float64 i.width) ∧
          y = mulFloat64 (float64 t) (float64 i.height) ∧
          wd = mulFloat64 (float64 bw) (float64 i.width) ∧
          h = mulFloat64 (float64 bh) (float64 i.height)) ∧
      (∀ face, w.loadFontFace "/Library/Fonts/Arial Unicode.ttf" 100 = .ok face →
        (∀ l ∈ resp.customLabels, WellFormed l) →
        ∀ label ∈ resp.customLabels, ∀ l t bw bh,
          boundingBoxFields label = some (l, t, bw, bh) →
          Event.drawRectangle (mulFloat64 (float64 l) (float64 i.width))
              (mulFloat64 (float64 t) (float64 i.height))
              (mulFloat64 (float64 bw) (float64 i.width))
              (mulFloat64 (float64 bh) (float64 i.height)) ∈ (main args w).trace ∧
            ((l, t, bw, bh) = (0, 0, 1, 1) →
              Event.drawRectangle 0 0 (float64 i.width) (float64 i.height) ∈
                (main args w).trace)) ∧
      (∀ n : ℤ, |n| < 2 ^ 53 → float64 (n : ℚ) = n) ∧
      (∀ (l : ℚ) (n : ℤ), IsFloat32 l → |n| < 2 ^ 29 →
        mulFloat64 (float64 l) (float64 (n : ℚ)) = l * n) := by
  refine ⟨?_, ?_, float64_intCast, fun l n hl hn => mulFloat64_exact l n hl hn⟩
  · intro x y wd h hm
    obtain ⟨fs1, cfg1, resp1, body1, i1, hp1, hc1, hd1, hg1, hi1, h1⟩ :=
      outcome_drawRectangle (main_outcome args w) hm
    rw [hp] at hp1
    cases hp1
    rw [hc] at hc1
    cases hc1
    rw [hd] at hd1
    cases hd1
    rw [hg] at hg1
    cases hg1
    rw [hi] at hi1
    cases hi1
    obtain ⟨label, hl, h2⟩ := mem_annotationCalls_rectangle _ _ _ _ _ _ _ 0 h1
    refine ⟨label, hl, ?_⟩
    cases hb : boundingBoxFields label with
    | none => simp [labelRectangle, hb] at h2
    | some box =>
      obtain ⟨l, t, bw, bh⟩ := box
      simp only [labelRectangle, hb, Option.some.injEq, Prod.mk.injEq] at h2
      exact ⟨l, t, bw, bh, rfl, h2.1.symm, h2.2.1.symm, h2.2.2.1.symm, h2.2.2.2.symm⟩
  · intro face hf hw label hl l t bw bh hb
    have hr := (rectangles_main args w fs cfg resp body i face hp hc hd hg hi hf hw).1
    have hmem : Event.drawRectangle (mulFloat64 (float64 l) (float64 i.width))
        (mulFloat64 (float64 t) (float64 i.height))
        (mulFloat64 (float64 bw) (float64 i.width))
        (mulFloat64 (float64 bh) (float64 i.height)) ∈ (main args w).trace := by
      have h1 : (mulFloat64 (float64 l) (float64 i.width),
          mulFloat64 (float64 t) (float64 i.height),
          mulFloat64 (float64 bw) (float64 i.width),
          mulFloat64 (float64 bh) (float64 i.height)) ∈ rectangles (main args w).trace := by
        rw [hr, List.mem_filterMap]
        exact ⟨label, hl, by simp [labelRectangle, hb]⟩
      exact mem_of_mem_rectangles _ _ h1
    refine ⟨hmem, ?_⟩
    intro h0
    simp only [Prod.mk.injEq] at h0
    obtain ⟨rfl, rfl, rfl, rfl⟩ := h0
    simpa [float64_zero, float64_one, mulFloat64_zero_left, mulFloat64_one_float64] using hmem

/-- C2 on a two by one image: the label with box `(0, 0, 1, 1)` gets the
rectangle `(0, 0, float64(2), float64(1))`, and every rectangle of the run is
the scaled box of one of the two labels. -/
theorem rectangle_scaled_by_decoded_image_witness :
    Event.drawRectangle 0 0 (float64 smallImage.width) (float64 smallImage.height) ∈
        (main catArgs (okWorld twoLabels.customLabels smallImage)).trace ∧
      (∀ x y wd h, Event.drawRectangle x y wd h ∈
          (main catArgs (okWorld twoLabels.customLabels smallImage)).trace →
        ∃ label ∈ twoLabels.customLabels, ∃ l t bw bh,
          boundingBoxFields label = some (l, t, bw, bh) ∧
          x = mulFloat64 (float64 l) (float64 smallImage.width) ∧
          y = mulFloat64 (float64 t) (float64 smallImage.height) ∧
          wd = mulFloat64 (float64 bw) (float64 smallImage.width) ∧
          h = mulFloat64 (float64 bh) (float64 smallImage.height)) :=
  ⟨((rectangle_scaled_by_decoded_image catArgs (okWorld twoLabels.customLabels smallImage)
      catFlags "us-east-1" twoLabels [137, 80, 78, 71] smallImage rfl rfl rfl rfl rfl).2.1
      "Arial Unicode" rfl twoLabels_wellFormed fullLabel (List.mem_cons_self _ _) 0 0 1 1
      rfl).2 rfl,
    (rectangle_scaled_by_decoded_image catArgs (okWorld twoLabels.customLabels smallImage)
      catFlags "us-east-1" twoLabels [137, 80, 78, 71] smallImage rfl rfl rfl rfl rfl).1⟩

/-- C3: in a run whose stages succeed on a response of `N` well-formed labels,
`DrawRectangle` is called `N` times and `DrawString` is called `N` times, and
for every `k` the `k`-th rectangle is the scaled box of the `k`-th label of the
response and the `k`-th text is that label's name, anchored at the `(x, y)` of
that rectangle. -/
theorem one_rectangle_and_text_per_label (args : List Arg) (w : World) (fs : FlagSet)
    (cfg : String) (resp : rekognition.DetectCustomLabelsOutput) (body : List ℕ)
    (i : image.Image) (face : String) (hp : flagParse commandLine args = .ok fs)
    (hc : w.loadDefaultConfig = .ok cfg)
    (hd : w.detectCustomLabels cfg (detectInput fs) = .ok resp)
    (hg : w.getObject cfg (getObjectInput fs) = .ok body) (hi : w.decode body = .ok i)
    (hf : w.loadFontFace "/Library/Fonts/Arial Unicode.ttf" 100 = .ok face)
    (hw : ∀ l ∈ resp.customLabels, WellFormed l) :
    (rectangles (main args w).trace).length = resp.customLabels.length ∧
      (texts (main args w).trace).length = resp.customLabels.length ∧
      ∀ (k : ℕ) (label : types.CustomLabel), resp.customLabels[k]? = some label →
        ∃ name l t bw bh, label.name = some name ∧
          boundingBoxFields label = some (l, t, bw, bh) ∧
          (rectangles (main args w).trace)[k]? =
            some (mulFloat64 (float64 l) (float64 i.width),
              mulFloat64 (float64 t) (float64 i.height),
              mulFloat64 (float64 bw) (float64 i.width),
              mulFloat64 (float64 bh) (float64 i.height)) ∧
          (texts (main args w).trace)[k]? =
            some (name, mulFloat64 (float64 l) (float64 i.width),
              mulFloat64 (float64 t) (float64 i.height)) := by
  obtain ⟨hr, ht⟩ := rectangles_main args w fs cfg resp body i face hp hc hd hg hi hf hw
  have hrs : ∀ l ∈ resp.customLabels, labelRectangle i.width i.height l ≠ none := by
    intro l hl
    have h1 := (hw l hl).2.2
    cases hb : boundingBoxFields l with
    | none => exact absurd hb h1
    | some box => simp [labelRectangle, hb]
  have hts : ∀ l ∈ resp.customLabels, labelText i.width i.height l ≠ none := by
    intro l hl
    have h1 := (hw l hl).2.2
    have h2 := (hw l hl).1
    cases hb : boundingBoxFields l with
    | none => exact absurd hb h1
    | some box =>
      cases hn : l.name with
      | none => exact absurd hn h2
      | some name => simp [labelText, hb, hn]
  refine ⟨?_, ?_, ?_⟩
  · rw [hr, filterMap_length_of_isSome _ _ hrs]
  · rw [ht, filterMap_length_of_isSome _ _ hts]
  · intro k label hk
    have hl : label ∈ resp.customLabels := List.getElem?_mem hk
    have h1 := (hw label hl).2.2
    have h2 := (hw label hl).1
    cases hb : boundingBoxFields label with
    | none => exact absurd hb h1
    | some box =>
      obtain ⟨l, t, bw, bh⟩ := box
      cases hn : label.name with
      | none => exact absurd hn h2
      | some name =>
        refine ⟨name, l, t, bw, bh, rfl, rfl, ?_, ?_⟩
        · rw [hr, filterMap_getElem_of_isSome _ _ hrs k label hk]
          simp [labelRectangle, hb]
        · rw [ht, filterMap_getElem_of_isSome _ _ hts k label hk]
          simp [labelText, hb, hn]

/-- C3 on a response of two labels. -/
theorem one_rectangle_and_text_per_label_witness :
    (rectangles (main catArgs (okWorld twoLabels.customLabels smallImage)).trace).length =
        twoLabels.customLabels.length ∧
      (texts (main catArgs (okWorld twoLabels.customLabels smallImage)).trace).length =
        twoLabels.customLabels.length ∧
      ∀ (k : ℕ) (label : types.CustomLabel), twoLabels.customLabels[k]? = some label →
        ∃ name l t bw bh, label.name = some name ∧
          boundingBoxFields label = some (l, t, bw, bh) ∧
          (rectangles (main catArgs (okWorld twoLabels.customLabels smallImage)).trace)[k]? =
            some (mulFloat64 (float64 l) (float64 smallImage.width),
              mulFloat64 (float64 t) (float64 smallImage.height),
              mulFloat64 (float64 bw) (float64 smallImage.width),
              mulFloat64 (float64 bh) (float64 smallImage.height)) ∧
          (texts (main catArgs (okWorld twoLabels.customLabels smallImage)).trace)[k]? =
            some (name, mulFloat64 (float64 l) (float64 smallImage.width),
              mulFloat64 (float64 t) (float64 smallImage.height)) :=
  one_rectangle_and_text_per_label catArgs (okWorld twoLabels.customLabels smallImage) catFlags
    "us-east-1" twoLabels [137, 80, 78, 71] smallImage "Arial Unicode" rfl rfl rfl rfl rfl rfl
    twoLabels_wellFormed

theorem premultiply_channel_full_alpha (x : ℕ) (h : x < 256) :
    x * (255 * 0x101 % 2 ^ 32) % 2 ^ 32 / 0xff / 2 ^ 8 % 256 = x := by
  have e0 : 255 * 0x101 % 2 ^ 32 = 65535 := by norm_num
  have h1 : x * 65535 % 2 ^ 32 = x * 65535 := Nat.mod_eq_of_lt (by norm_num; omega)
  have h2 : x * 65535 / 0xff = x * 257 := by omega
  have h3 : x * 257 / 2 ^ 8 = x := by omega
  rw [e0, h1, h2, h3]
  exact Nat.mod_eq_of_lt h

theorem premultiply_alpha_full_alpha : 255 * 0x101 % 2 ^ 32 / 2 ^ 8 % 256 = 255 := by
  norm_num

theorem premultiply_full_alpha (r g b : ℕ) (hr : r < 256) (hg : g < 256) (hb : b < 256) :
    draw.premultiply { r := r, g := g, b := b, a := 255 } =
      { r := r, g := g, b := b, a := 255 } := by
  simp only [draw.premultiply, premultiply_channel_full_alpha r hr,
    premultiply_channel_full_alpha g hg, premultiply_channel_full_alpha b hb,
    premultiply_alpha_full_alpha]

theorem unpremultiply_full_alpha (r g b : ℕ) :
    png.unpremultiply { r := r, g := g, b := b, a := 255 } =
      { r := r, g := g, b := b, a := 255 } := by
  simp [png.unpremultiply]

theorem roundtrip_full_alpha (c : color.NRGBA) (ha : c.a = 255) (hr : c.r < 256)
    (hg : c.g < 256) (hb : c.b < 256) : png.unpremultiply (draw.premultiply c) = c := by
  obtain ⟨r, g, b, a⟩ := c
  simp only at ha hr hg hb
  subst ha
  rw [premultiply_full_alpha r g b hr hg hb, unpremultiply_full_alpha]

theorem encode_imageToRGBA_full_alpha (i : image.Image)
    (h : ∀ c ∈ i.pix, c.a = 255 ∧ c.r < 256 ∧ c.g < 256 ∧ c.b < 256) :
    png.Encode (gg.imageToRGBA i) = i := by
  obtain ⟨wd, ht, pix⟩ := i
  simp only [png.Encode, gg.imageToRGBA, List.map_map, image.Image.mk.injEq, true_and]
  simp only at h
  induction pix with
  | nil => rfl
  | cons c rest ih =>
    have hc := h c (by simp)
    simp only [List.map_cons, Function.comp_apply, List.cons.injEq]
    exact ⟨roundtrip_full_alpha c hc.1 hc.2.1 hc.2.2.1 hc.2.2.2,
      ih (fun c1 h1 => h c1 (List.mem_cons_of_mem _ h1))⟩

/-- C5, amended: in a run whose stages succeed and whose detection response has
no label, the calls are the ten of the straight path (and the fatal log line
when the save itself fails), none of them a drawing operation, and the buffer
handed to `SavePNG("output.png")` is the RGBA copy that `NewContextForImage`
made of the decoded image, untouched. The image that `png.Encode` writes from
that buffer is the decoded image, pixel for pixel, when every pixel of the
source has full alpha. -/
theorem zero_labels_output_is_copy (args : List Arg) (w : World) (fs : FlagSet)
    (cfg : String) (resp : rekognition.DetectCustomLabelsOutput) (body : List ℕ)
    (i : image.Image) (face : String) (hp : flagParse commandLine args = .ok fs)
    (hc : w.loadDefaultConfig = .ok cfg)
    (hd : w.detectCustomLabels cfg (detectInput fs) = .ok resp)
    (hz : resp.customLabels = [])
    (hg : w.getObject cfg (getObjectInput fs) = .ok body) (hi : w.decode body = .ok i)
    (hf : w.loadFontFace "/Library/Fonts/Arial Unicode.ttf" 100 = .ok face) :
    (main args w).trace =
        [.loadDefaultConfig, .detectCustomLabels (detectInput fs),
         .printf "Detected %v labels" [.int 0], .getObject (getObjectInput fs), .decode body,
         .newContextForImage i, .loadFontFace "/Library/Fonts/Arial Unicode.ttf" 100,
         .setRGB 1 0 0, .setLineWidth 10, .savePNG "output.png" (gg.imageToRGBA i)] ++
        (match w.savePNG "output.png" (gg.imageToRGBA i) with
          | some err => [.fatalf "error saving image: %v" err]
          | none => []) ∧
      (main args w).trace.filter Event.isDrawing = [] ∧
      savedImages (main args w).trace = [("output.png", gg.imageToRGBA i)] ∧
      ((∀ c ∈ i.pix, c.a = 255 ∧ c.r < 256 ∧ c.g < 256 ∧ c.b < 256) →
        ∀ path im, (path, im) ∈ savedImages (main args w).trace → png.Encode im = i) := by
  have hl : ∀ l ∈ resp.customLabels, l.name ≠ none ∧ l.confidence ≠ none := by
    rw [hz]
    simp
  have hm := main_annotates args w fs cfg resp body i face hp hc hd hl hg hi hf
  have him : (loopContext i face).im = gg.imageToRGBA i := rfl
  have ht : (main args w).trace =
      [.loadDefaultConfig, .detectCustomLabels (detectInput fs),
       .printf "Detected %v labels" [.int 0], .getObject (getObjectInput fs), .decode body,
       .newContextForImage i, .loadFontFace "/Library/Fonts/Arial Unicode.ttf" 100,
       .setRGB 1 0 0, .setLineWidth 10, .savePNG "output.png" (gg.imageToRGBA i)] ++
      (match w.savePNG "output.png" (gg.imageToRGBA i) with
        | some err => [.fatalf "error saving image: %v" err]
        | none => []) := by
    rw [hm, hz]
    simp only [annotate, Run.after_trace, callsToLog, hz, logCalls, save, him]
    cases hs : w.savePNG "output.png" (gg.imageToRGBA i) <;> simp
  refine ⟨ht, ?_, ?_, ?_⟩
  · rw [ht]
    cases hs : w.savePNG "output.png" (gg.imageToRGBA i) <;> simp [Event.isDrawing]
  · rw [ht]
    cases hs : w.savePNG "output.png" (gg.imageToRGBA i) <;> simp [savedImages]
  · intro hop path im h
    rw [ht] at h
    have him2 : im = gg.imageToRGBA i := by
      cases hs : w.savePNG "output.png" (gg.imageToRGBA i) <;>
        simp [hs, savedImages] at h <;> exact h.2
    rw [him2]
    exact encode_imageToRGBA_full_alpha i hop

theorem smallImage_full_alpha :
    ∀ c ∈ smallImage.pix, c.a = 255 ∧ c.r < 256 ∧ c.g < 256 ∧ c.b < 256 := by
  decide

/-- C5, amended, on a world that answers no label and a two by one
image of full alpha: the buffer saved is the untouched copy and the file is
the source. -/
theorem zero_labels_output_is_copy_witness :
    (main catArgs (okWorld [] smallImage)).trace =
        [.loadDefaultConfig, .detectCustomLabels (detectInput catFlags),
         .printf "Detected %v labels" [.int 0], .getObject (getObjectInput catFlags),
         .decode [137, 80, 78, 71], .newContextForImage smallImage,
         .loadFontFace "/Library/Fonts/Arial Unicode.ttf" 100,
         .setRGB 1 0 0, .setLineWidth 10, .savePNG "output.png" (gg.imageToRGBA smallImage)] ++
        (match (okWorld [] smallImage).savePNG "output.png" (gg.imageToRGBA smallImage) with
          | some err => [.fatalf "error saving image: %v" err]
          | none => []) ∧
      (main catArgs (okWorld [] smallImage)).trace.filter Event.isDrawing = [] ∧
      savedImages (main catArgs (okWorld [] smallImage)).trace =
        [("output.png", gg.imageToRGBA smallImage)] ∧
      (∀ path im, (path, im) ∈ savedImages (main catArgs (okWorld [] smallImage)).trace →
        png.Encode im = smallImage) :=
  ⟨(zero_labels_output_is_copy catArgs (okWorld [] smallImage) catFlags "us-east-1" noLabels
      [137, 80, 78, 71] smallImage "Arial Unicode" rfl rfl rfl rfl rfl rfl rfl).1,
    (zero_labels_output_is_copy catArgs (okWorld [] smallImage) catFlags "us-east-1" noLabels
      [137, 80, 78, 71] smallImage "Arial Unicode" rfl rfl rfl rfl rfl rfl rfl).2.1,
    (zero_labels_output_is_copy catArgs (okWorld [] smallImage) catFlags "us-east-1" noLabels
      [137, 80, 78, 71] smallImage "Arial Unicode" rfl rfl rfl rfl rfl rfl rfl).2.2.1,
    (zero_labels_output_is_copy catArgs (okWorld [] smallImage) catFlags "us-east-1" noLabels
      [137, 80, 78, 71] smallImage "Arial Unicode" rfl rfl rfl rfl rfl rfl rfl).2.2.2
      smallImage_full_alpha⟩

/-- C5 as stated fails on a source with partial alpha: the detection answers no
label, every stage succeeds, no drawing operation is made, and the image
written to `output.png` has the pixels `(170, 85, 0, 3)` and `(9, 19, 29, 128)`
where the decoded source has `(200, 100, 50, 3)` and `(10, 20, 30, 128)`. -/
theorem zero_labels_alpha_source_changes :
    (okWorld [] alphaImage).detectCustomLabels "us-east-1" (detectInput catFlags) =
        .ok { customLabels := [] } ∧
      (main catArgs (okWorld [] alphaImage)).exitCode = 0 ∧
      (main catArgs (okWorld [] alphaImage)).trace.filter Event.isDrawing = [] ∧
      savedImages (main catArgs (okWorld [] alphaImage)).trace =
        [("output.png", gg.imageToRGBA alphaImage)] ∧
      alphaImage.pix = [⟨200, 100, 50, 3⟩, ⟨10, 20, 30, 128⟩] ∧
      (png.Encode (gg.imageToRGBA alphaImage)).pix = [⟨170, 85, 0, 3⟩, ⟨9, 19, 29, 128⟩] ∧
      png.Encode (gg.imageToRGBA alphaImage) ≠ alphaImage := by
  refine ⟨rfl, rfl, rfl, rfl, rfl, by decide, by decide⟩

theorem rectangles_filter_isDrawing (es : List Event) :
    rectangles (es.filter Event.isDrawing) = rectangles es := by
  induction es with
  | nil => rfl
  | cons e rest ih => cases e <;> simp [List.filter_cons, Event.isDrawing, rectangles, ih]

/-! ## The scenario -/

theorem float32_tenth : float32 (1 / 10) = ((13421773 : ℤ) : ℚ) * 2 ^ (-27 : ℤ) := by
  have h := roundTo_near 24 (1 / 10) (-4) 13421773 (by norm_num [abs_of_pos])
    (by norm_num [abs_of_pos]) (by norm_num) (by norm_num)
  rw [float32, h]
  norm_num

theorem float32_fifth : float32 (1 / 5) = ((13421773 : ℤ) : ℚ) * 2 ^ (-26 : ℤ) := by
  have h := roundTo_near 24 (1 / 5) (-3) 13421773 (by norm_num [abs_of_pos])
    (by norm_num [abs_of_pos]) (by norm_num) (by norm_num)
  rw [float32, h]
  norm_num

theorem float32_three_tenths : float32 (3 / 10) = ((10066330 : ℤ) : ℚ) * 2 ^ (-25 : ℤ) := by
  have h := roundTo_near 24 (3 / 10) (-2) 10066330 (by norm_num [abs_of_pos])
    (by norm_num [abs_of_pos]) (by norm_num) (by norm_num)
  rw [float32, h]
  norm_num

theorem float32_two_fifths : float32 (2 / 5) = ((13421773 : ℤ) : ℚ) * 2 ^ (-25 : ℤ) := by
  have h := roundTo_near 24 (2 / 5) (-2) 13421773 (by norm_num [abs_of_pos])
    (by norm_num [abs_of_pos]) (by norm_num) (by norm_num)
  rw [float32, h]
  norm_num

theorem cat_x : mulFloat64 (float64 (float32 (1 / 10))) (float64 ((1000 : ℤ) : ℚ)) =
    100 + 25 / 2 ^ 24 := by
  rw [float32_tenth, mulFloat64_exact _ 1000 ⟨13421773, -27, by norm_num, rfl⟩ (by norm_num)]
  norm_num

theorem cat_y : mulFloat64 (float64 (float32 (1 / 5))) (float64 ((500 : ℤ) : ℚ)) =
    100 + 25 / 2 ^ 24 := by
  rw [float32_fifth, mulFloat64_exact _ 500 ⟨13421773, -26, by norm_num, rfl⟩ (by norm_num)]
  norm_num

theorem cat_w : mulFloat64 (float64 (float32 (3 / 10))) (float64 ((1000 : ℤ) : ℚ)) =
    300 + 25 / 2 ^ 21 := by
  rw [float32_three_tenths,
    mulFloat64_exact _ 1000 ⟨10066330, -25, by norm_num, rfl⟩ (by norm_num)]
  norm_num

theorem cat_h : mulFloat64 (float64 (float32 (2 / 5))) (float64 ((500 : ℤ) : ℚ)) =
    200 + 25 / 2 ^ 23 := by
  rw [float32_two_fifths,
    mulFloat64_exact _ 500 ⟨13421773, -25, by norm_num, rfl⟩ (by norm_num)]
  norm_num

theorem cat_run (w : World) (cfg : String) (body : List ℕ) (i : image.Image)
    (face : String) (hc : w.loadDefaultConfig = .ok cfg)
    (hd : w.detectCustomLabels cfg (detectInput catFlags) = .ok catResponse)
    (hg : w.getObject cfg (getObjectInput catFlags) = .ok body) (hi : w.decode body = .ok i)
    (hW : i.width = 1000) (hH : i.height = 500)
    (hf : w.loadFontFace "/Library/Fonts/Arial Unicode.ttf" 100 = .ok face) :
    main catArgs w = Run.after (callsToLog catFlags catResponse ++
        [.getObject (getObjectInput catFlags), .decode body, .newContextForImage i,
         .loadFontFace "/Library/Fonts/Arial Unicode.ttf" 100, .setRGB 1 0 0, .setLineWidth 10])
      (Run.after (iterationCalls 0 "Cat" (100 + 25 / 2 ^ 24) (100 + 25 / 2 ^ 24)
          (300 + 25 / 2 ^ 21) (200 + 25 / 2 ^ 23))
        (save w (drawLabel w (loopContext i face) "Cat" (100 + 25 / 2 ^ 24)
          (100 + 25 / 2 ^ 24) (300 + 25 / 2 ^ 21) (200 + 25 / 2 ^ 23)))) := by
  have hp : flagParse commandLine catArgs = .ok catFlags := rfl
  have hl : ∀ l ∈ catResponse.customLabels, l.name ≠ none ∧ l.confidence ≠ none := by
    intro l hl
    simp only [catResponse, List.mem_singleton] at hl
    rw [hl]
    simp [catLabel]
  have hm := main_annotates catArgs w catFlags cfg catResponse body i face hp hc hd hl hg hi hf
  have hb : boundingBoxFields catLabel =
      some (float32 (1 / 10), float32 (1 / 5), float32 (3 / 10), float32 (2 / 5)) := rfl
  have hn : catLabel.name = some "Cat" := rfl
  have ha : annotate w (save w) (loopContext i face) 0 catResponse.customLabels =
      Run.after (iterationCalls 0 "Cat" (100 + 25 / 2 ^ 24) (100 + 25 / 2 ^ 24)
          (300 + 25 / 2 ^ 21) (200 + 25 / 2 ^ 23))
        (save w (drawLabel w (loopContext i face) "Cat" (100 + 25 / 2 ^ 24)
          (100 + 25 / 2 ^ 24) (300 + 25 / 2 ^ 21) (200 + 25 / 2 ^ 23))) := by
    simp only [catResponse, annotate, hb, hn, loopContext_width, loopContext_height, hW, hH,
      cat_x, cat_y, cat_w, cat_h]
  rw [hm, ha]

theorem cat_drawing (w : World) (cfg : String) (body : List ℕ) (i : image.Image)
    (face : String) (hc : w.loadDefaultConfig = .ok cfg)
    (hd : w.detectCustomLabels cfg (detectInput catFlags) = .ok catResponse)
    (hg : w.getObject cfg (getObjectInput catFlags) = .ok body) (hi : w.decode body = .ok i)
    (hW : i.width = 1000) (hH : i.height = 500)
    (hf : w.loadFontFace "/Library/Fonts/Arial Unicode.ttf" 100 = .ok face) :
    (main catArgs w).trace.filter Event.isDrawing =
      [.drawRectangle (100 + 25 / 2 ^ 24) (100 + 25 / 2 ^ 24) (300 + 25 / 2 ^ 21)
         (200 + 25 / 2 ^ 23),
       .stroke, .drawString "Cat" (100 + 25 / 2 ^ 24) (100 + 25 / 2 ^ 24), .stroke] := by
  have hlog : logCalls [catLabel] =
      [.printf "%v: %v\x08" [.str "Cat", .float (float32 (185 / 2))]] := rfl
  rw [cat_run w cfg body i face hc hd hg hi hW hH hf]
  rcases save_cases w (drawLabel w (loopContext i face) "Cat" (100 + 25 / 2 ^ 24)
    (100 + 25 / 2 ^ 24) (300 + 25 / 2 ^ 21) (200 + 25 / 2 ^ 23)) with ⟨err, _, h⟩ | ⟨_, h⟩ <;>
  · rw [h]
    simp [callsToLog, catResponse, hlog, iterationCalls, Event.isDrawing]

theorem mem_filter_isDrawing_rectangle (es : List Event) (x y wd h : ℚ)
    (hm : Event.drawRectangle x y wd h ∈ es) :
    Event.drawRectangle x y wd h ∈ es.filter Event.isDrawing :=
  List.mem_filter.mpr ⟨hm, rfl⟩

theorem mem_filter_isDrawing_string (es : List Event) (t : String) (x y : ℚ)
    (hm : Event.drawString t x y ∈ es) :
    Event.drawString t x y ∈ es.filter Event.isDrawing :=
  List.mem_filter.mpr ⟨hm, rfl⟩

/-- C8, amended: on the command line of the scenario (bucket `photos`, key
`cat.jpg`, model `arn:model/v1`), when the service answers the single label
`Cat` with confidence 92.5 and box `(0.1, 0.2, 0.3, 0.4)`, each number being
the `float32` the response holds, and the decoded image is 1000 by 500, the
drawing operations of `main` are exactly one `DrawRectangle`, its `Stroke`, one
`DrawString` of `Cat` and its `Stroke`. The rectangle is `(100 + 25/2^24,
100 + 25/2^24, 300 + 25/2^21, 200 + 25/2^23)`, which truncates to the pixel
`(100, 100)` and the size 300 by 200, and the text is anchored at the origin of
the rectangle. The buffer handed to `SavePNG("output.png")` is the copy of the
image after the rasteriser stroked that rectangle in red with line width 10,
drew the text and stroked the then empty path; the run exits with 0 when that
save succeeds. -/
theorem cat_scenario (w : World) (cfg : String) (body : List ℕ) (i : image.Image)
    (face : String) (hc : w.loadDefaultConfig = .ok cfg)
    (hd : w.detectCustomLabels cfg (detectInput catFlags) = .ok catResponse)
    (hg : w.getObject cfg (getObjectInput catFlags) = .ok body) (hi : w.decode body = .ok i)
    (hW : i.width = 1000) (hH : i.height = 500)
    (hf : w.loadFontFace "/Library/Fonts/Arial Unicode.ttf" 100 = .ok face) :
    (main catArgs w).trace.filter Event.isDrawing =
        [.drawRectangle (100 + 25 / 2 ^ 24) (100 + 25 / 2 ^ 24) (300 + 25 / 2 ^ 21)
           (200 + 25 / 2 ^ 23),
         .stroke, .drawString "Cat" (100 + 25 / 2 ^ 24) (100 + 25 / 2 ^ 24), .stroke] ∧
      (rectangles (main catArgs w).trace).map
          (fun r => (⌊r.1⌋, ⌊r.2.1⌋, ⌊r.2.2.1⌋, ⌊r.2.2.2⌋)) = [(100, 100, 300, 200)] ∧
      (texts (main catArgs w).trace).map (fun t => (t.1, ⌊t.2.1⌋, ⌊t.2.2⌋)) =
        [("Cat", 100, 100)] ∧
      savedImages (main catArgs w).trace =
        [("output.png",
          w.stroke
            { width := i.width, height := i.height,
              im := (w.drawString
                { width := i.width, height := i.height,
                  im := (w.stroke
                    { width := i.width, height := i.height, im := gg.imageToRGBA i,
                      color := (1, 0, 0, 1), lineWidth := 10, fontFace := face,
                      path := [(100 + 25 / 2 ^ 24, 100 + 25 / 2 ^ 24, 300 + 25 / 2 ^ 21,
                        200 + 25 / 2 ^ 23)] }),
                  color := (1, 0, 0, 1), lineWidth := 10, fontFace := face, path := [] }
                "Cat" (100 + 25 / 2 ^ 24) (100 + 25 / 2 ^ 24)),
              color := (1, 0, 0, 1), lineWidth := 10, fontFace := face, path := [] })] ∧
      ((∀ im, ("output.png", im) ∈ savedImages (main catArgs w).trace →
          w.savePNG "output.png" im = none) →
        (main catArgs w).exitCode = 0) := by
  have hlog : logCalls [catLabel] =
      [.printf "%v: %v\x08" [.str "Cat", .float (float32 (185 / 2))]] := rfl
  have hrun := cat_run w cfg body i face hc hd hg hi hW hH hf
  have f1 : ⌊(100 + 25 / 2 ^ 24 : ℚ)⌋ = 100 := by
    rw [Int.floor_eq_iff]
    constructor <;> norm_num
  have f2 : ⌊(300 + 25 / 2 ^ 21 : ℚ)⌋ = 300 := by
    rw [Int.floor_eq_iff]
    constructor <;> norm_num
  have f3 : ⌊(200 + 25 / 2 ^ 23 : ℚ)⌋ = 200 := by
    rw [Int.floor_eq_iff]
    constructor <;> norm_num
  refine ⟨cat_drawing w cfg body i face hc hd hg hi hW hH hf, ?_, ?_, ?_, ?_⟩
  · rw [hrun, Run.after_trace, Run.after_trace, rectangles_append, rectangles_append,
      rectangles_append, rectangles_save]
    simp only [callsToLog, catResponse, hlog, iterationCalls, rectangles, List.cons_append,
      List.nil_append, List.append_nil, List.map_cons, List.map_nil, f1, f2, f3]
  · rw [hrun, Run.after_trace, Run.after_trace, texts_append, texts_append,
      texts_append, texts_save]
    simp only [callsToLog, catResponse, hlog, iterationCalls, texts, List.cons_append,
      List.nil_append, List.append_nil, List.map_cons, List.map_nil, f1]
  · rw [hrun, Run.after_trace, Run.after_trace, savedImages_append, savedImages_append,
      savedImages_append, savedImages_save]
    simp only [callsToLog, catResponse, hlog, iterationCalls, savedImages, List.cons_append,
      List.nil_append]
    rfl
  · intro hs
    have hsv : savedImages (main catArgs w).trace =
        [("output.png", (drawLabel w (loopContext i face) "Cat" (100 + 25 / 2 ^ 24)
          (100 + 25 / 2 ^ 24) (300 + 25 / 2 ^ 21) (200 + 25 / 2 ^ 23)).im)] := by
      rw [hrun, Run.after_trace, Run.after_trace, savedImages_append, savedImages_append,
        savedImages_append, savedImages_save]
      simp only [callsToLog, catResponse, hlog, iterationCalls, savedImages, List.cons_append,
        List.nil_append]
    have h1 := hs _ (by rw [hsv]; exact List.mem_singleton_self _)
    rw [hrun]
    simp [save, h1]

/-- C8, amended, in a world where every call succeeds and the image is 1000 by
500. -/
theorem cat_scenario_witness :
    (main catArgs (okWorld [catLabel] catImage)).trace.filter Event.isDrawing =
        [.drawRectangle (100 + 25 / 2 ^ 24) (100 + 25 / 2 ^ 24) (300 + 25 / 2 ^ 21)
           (200 + 25 / 2 ^ 23),
         .stroke, .drawString "Cat" (100 + 25 / 2 ^ 24) (100 + 25 / 2 ^ 24), .stroke] ∧
      (rectangles (main catArgs (okWorld [catLabel] catImage)).trace).map
          (fun r => (⌊r.1⌋, ⌊r.2.1⌋, ⌊r.2.2.1⌋, ⌊r.2.2.2⌋)) = [(100, 100, 300, 200)] ∧
      (texts (main catArgs (okWorld [catLabel] catImage)).trace).map
          (fun t => (t.1, ⌊t.2.1⌋, ⌊t.2.2⌋)) = [("Cat", 100, 100)] ∧
      (main catArgs (okWorld [catLabel] catImage)).exitCode = 0 :=
  ⟨(cat_scenario (okWorld [catLabel] catImage) "us-east-1" [137, 80, 78, 71] catImage
      "Arial Unicode" rfl rfl rfl rfl rfl rfl rfl).1,
    (cat_scenario (okWorld [catLabel] catImage) "us-east-1" [137, 80, 78, 71] catImage
      "Arial Unicode" rfl rfl rfl rfl rfl rfl rfl).2.1,
    (cat_scenario (okWorld [catLabel] catImage) "us-east-1" [137, 80, 78, 71] catImage
      "Arial Unicode" rfl rfl rfl rfl rfl rfl rfl).2.2.1,
    (cat_scenario (okWorld [catLabel] catImage) "us-east-1" [137, 80, 78, 71] catImage
      "Arial Unicode" rfl rfl rfl rfl rfl rfl rfl).2.2.2.2 (fun _ _ => rfl)⟩

/-- C8 as stated fails: in the scenario no `DrawRectangle(100, 100, 300, 200)`
and no `DrawString("Cat", 100, 100)` is ever called; the one rectangle drawn
starts at `100 + 25/2^24`. -/
theorem cat_rectangle_is_not_round :
    Event.drawRectangle 100 100 300 200 ∉ (main catArgs (okWorld [catLabel] catImage)).trace ∧
      Event.drawString "Cat" 100 100 ∉ (main catArgs (okWorld [catLabel] catImage)).trace ∧
      rectangles (main catArgs (okWorld [catLabel] catImage)).trace ≠
        [(100, 100, 300, 200)] := by
  have h := cat_drawing (okWorld [catLabel] catImage) "us-east-1" [137, 80, 78, 71] catImage
    "Arial Unicode" rfl rfl rfl rfl rfl rfl rfl
  have hne : (100 : ℚ) ≠ 100 + 25 / 2 ^ 24 := by norm_num
  refine ⟨?_, ?_, ?_⟩
  · intro hm
    have h1 := mem_filter_isDrawing_rectangle _ _ _ _ _ hm
    rw [h] at h1
    simp only [List.mem_cons, Event.drawRectangle.injEq, List.mem_singleton,
      List.not_mem_nil, or_false, reduceCtorEq] at h1
    exact hne h1.1
  · intro hm
    have h1 := mem_filter_isDrawing_string _ _ _ _ hm
    rw [h] at h1
    simp only [List.mem_cons, Event.drawString.injEq, List.mem_singleton,
      List.not_mem_nil, or_false, reduceCtorEq, false_or] at h1
    exact hne h1.2.1
  · intro hr
    have h2 : (100 + 25 / 2 ^ 24, 100 + 25 / 2 ^ 24, 300 + 25 / 2 ^ 21, 200 + 25 / 2 ^ 23) ∈
        rectangles (main catArgs (okWorld [catLabel] catImage)).trace := by
      have h3 := rectangles_filter_isDrawing
        (main catArgs (okWorld [catLabel] catImage)).trace
      rw [h] at h3
      rw [← h3]
      simp [rectangles]
    rw [hr] at h2
    simp only [List.mem_singleton, Prod.mk.injEq] at h2
    exact hne h2.1.symm

/-! ## Two runs -/

theorem annotationCalls_abort (W H : ℤ) (pre : List types.CustomLabel) (l : types.CustomLabel)
    (post : List types.CustomLabel)
    (h : ∀ l1 ∈ pre, boundingBoxFields l1 ≠ none ∧ l1.name ≠ none)
    (hl : boundingBoxFields l = none) :
    ∀ i, annotationCalls W H i (pre ++ l :: post) = annotationCalls W H i pre := by
  induction pre with
  | nil =>
    intro i
    simp [annotationCalls, hl]
  | cons label rest ih =>
    intro i
    have h1 := h label (by simp)
    have ih1 := ih (fun l hl => h l (List.mem_cons_of_mem _ hl))
    cases hb : boundingBoxFields label with
    | none => exact absurd hb h1.1
    | some box =>
      obtain ⟨l, t, bw, bh⟩ := box
      cases hn : label.name with
      | none => exact absurd hn h1.2
      | some name =>
        rw [List.cons_append]
        simp only [annotationCalls, hb, hn]
        rw [ih1]

/-- C10, amended. On a response whose labels are all well-formed, in a run
whose fetch, decoding and font loading succeed, the loops complete without
error: no nil pointer is met, `main` goes on to call `SavePNG("output.png")`
with the annotated buffer, and the exit status is 0 or 1 as that save succeeds
or fails. On a response whose labels all carry a
name and a confidence and in which the label `l` is the first without a full
bounding box, such a run fetches and decodes the image, draws the labels
before `l`, aborts on the nil pointer of `l` with exit status 2 and never
calls `SavePNG`. On a response in which some label lacks its name or its
confidence, `main` aborts on a nil pointer in the logging loop with exit
status 2, before any `GetObject` or decoding, and never calls `SavePNG`. -/
theorem nil_field_aborts (args : List Arg) (w : World) (fs : FlagSet) (cfg : String)
    (resp : rekognition.DetectCustomLabelsOutput)
    (hp : flagParse commandLine args = .ok fs) (hc : w.loadDefaultConfig = .ok cfg)
    (hd : w.detectCustomLabels cfg (detectInput fs) = .ok resp) :
    (∀ body i face, w.getObject cfg (getObjectInput fs) = .ok body → w.decode body = .ok i →
        w.loadFontFace "/Library/Fonts/Arial Unicode.ttf" 100 = .ok face →
        (∀ l ∈ resp.customLabels, WellFormed l) →
        Event.nilDereference ∉ (main args w).trace ∧
          savedImages (main args w).trace =
            [("output.png", (annotatedContext w (loopContext i face) resp.customLabels).im)] ∧
          (main args w).exitCode =
            (match w.savePNG "output.png"
                (annotatedContext w (loopContext i face) resp.customLabels).im with
              | none => 0
              | some _ => 1)) ∧
      (∀ body i face, w.getObject cfg (getObjectInput fs) = .ok body → w.decode body = .ok i →
        w.loadFontFace "/Library/Fonts/Arial Unicode.ttf" 100 = .ok face →
        (∀ l ∈ resp.customLabels, l.name ≠ none ∧ l.confidence ≠ none) →
        ∀ pre l post, resp.customLabels = pre ++ l :: post →
          (∀ l1 ∈ pre, boundingBoxFields l1 ≠ none) → boundingBoxFields l = none →
          (main args w).exitCode = 2 ∧
            (main args w).trace = callsToLog fs resp ++
              [.getObject (getObjectInput fs), .decode body, .newContextForImage i,
               .loadFontFace "/Library/Fonts/Arial Unicode.ttf" 100, .setRGB 1 0 0,
               .setLineWidth 10] ++
              annotationCalls i.width i.height 0 pre ++ [.nilDereference] ∧
            (rectangles (main args w).trace).length = pre.length ∧
            savedImages (main args w).trace = []) ∧
      ((∃ l ∈ resp.customLabels, l.name = none ∨ l.confidence = none) →
        (main args w).exitCode = 2 ∧
          (main args w).trace = callsToLog fs resp ++ [.nilDereference] ∧
          (∀ gi, Event.getObject gi ∉ (main args w).trace) ∧
          (∀ body, Event.decode body ∉ (main args w).trace) ∧
          savedImages (main args w).trace = []) := by
  refine ⟨?_, ?_, ?_⟩
  · intro body i face hg hi hf hw
    rw [main_complete args w fs cfg resp body i face hp hc hd hg hi hf hw]
    refine ⟨?_, ?_, ?_⟩
    rotate_left 2
    · rcases save_cases w (annotatedContext w (loopContext i face) resp.customLabels) with
        ⟨err, hs, h⟩ | ⟨hs, h⟩ <;>
      · rw [Run.after_exitCode, h, hs]
    · have n1 := @not_mem_of_stage_zero _ (logCalls_stage resp.customLabels) .nilDereference
      have n2 := annotationCalls_nil_free i.width i.height resp.customLabels 0
      rcases save_cases w (annotatedContext w (loopContext i face) resp.customLabels) with
        ⟨err, _, h⟩ | ⟨_, h⟩ <;>
      · rw [h]
        simp [callsToLog, callsToSave, n2, logCalls_nil_free]
    · rw [Run.after_trace, savedImages_append, savedImages_append, savedImages_save]
      simp [callsToLog, callsToSave, savedImages_append, savedImages, savedImages_logCalls,
        savedImages_annotationCalls]
  · intro body i face hg hi hf hl pre l post hsplit hpre hbad
    have hpre2 : ∀ l1 ∈ pre, boundingBoxFields l1 ≠ none ∧ l1.name ≠ none := by
      intro l1 hl1
      refine ⟨hpre l1 hl1, (hl l1 ?_).1⟩
      rw [hsplit]
      exact List.mem_append_left _ hl1
    have hex : ∃ l1 ∈ resp.customLabels, boundingBoxFields l1 = none ∨ l1.name = none := by
      refine ⟨l, ?_, Or.inl hbad⟩
      rw [hsplit]
      simp
    have hm := main_annotates args w fs cfg resp body i face hp hc hd hl hg hi hf
    rw [annotate_nil w resp.customLabels hex, loopContext_width, loopContext_height] at hm
    have hcalls : annotationCalls i.width i.height 0 resp.customLabels =
        annotationCalls i.width i.height 0 pre := by
      rw [hsplit]
      exact annotationCalls_abort _ _ pre l post hpre2 hbad 0
    rw [hcalls] at hm
    have ht : (main args w).trace = callsToLog fs resp ++
        [.getObject (getObjectInput fs), .decode body, .newContextForImage i,
         .loadFontFace "/Library/Fonts/Arial Unicode.ttf" 100, .setRGB 1 0 0,
         .setLineWidth 10] ++
        annotationCalls i.width i.height 0 pre ++ [.nilDereference] := by
      rw [hm]
      simp
    refine ⟨by rw [hm]; rfl, ht, ?_, ?_⟩
    · rw [ht]
      have hr := rectangles_annotationCalls i.width i.height pre hpre2 0
      have hrs : ∀ l1 ∈ pre, labelRectangle i.width i.height l1 ≠ none := by
        intro l1 hl1
        have h1 := hpre l1 hl1
        cases hb : boundingBoxFields l1 with
        | none => exact absurd hb h1
        | some box => simp [labelRectangle, hb]
      simp [rectangles_append, callsToLog, rectangles, rectangles_logCalls, hr,
        filterMap_length_of_isSome _ _ hrs]
    · rw [ht]
      simp [savedImages_append, callsToLog, savedImages, savedImages_logCalls,
        savedImages_annotationCalls]
  · intro hbad
    have hm : main args w = Run.after (callsToLog fs resp) nilDereference := by
      simp [main, hp, hc, detect, hd, logLabels_nil resp.customLabels hbad, Run.after,
        callsToLog]
    have n1 : ∀ gi, Event.getObject gi ∉ logCalls resp.customLabels := fun gi =>
      not_mem_of_stage_zero (logCalls_stage resp.customLabels) (by simp [Event.stage])
    have n2 : ∀ body, Event.decode body ∉ logCalls resp.customLabels := fun body =>
      not_mem_of_stage_zero (logCalls_stage resp.customLabels) (by simp [Event.stage])
    rw [hm]
    refine ⟨rfl, rfl, ?_, ?_, ?_⟩
    · intro gi
      simp [callsToLog, n1]
    · intro body
      simp [callsToLog, n2]
    · simp [savedImages_append, callsToLog, savedImages, savedImages_logCalls]

theorem ghostResponse_named :
    ∀ l ∈ ghostResponse.customLabels, l.name ≠ none ∧ l.confidence ≠ none := by
  intro l hl
  simp only [ghostResponse, List.mem_cons, List.mem_singleton, List.not_mem_nil,
    or_false] at hl
  rcases hl with rfl | rfl | rfl <;> simp [fullLabel, ghostLabel, halfLabel]

theorem fullLabel_boxed : ∀ l ∈ [fullLabel], boundingBoxFields l ≠ none := by
  intro l hl
  simp only [List.mem_singleton] at hl
  rw [hl]
  simp [fullLabel, boundingBoxFields]

/-- C10, amended, on three responses. With `ghostResponse`, whose second label
of three has no geometry, the run fetches, decodes, draws the first label and
aborts without calling `SavePNG`. With two well-formed labels the run meets no
nil pointer, calls `SavePNG` with the buffer its last `Stroke` left and exits
with 0. With a label without a name the
run aborts before the fetch. -/
theorem nil_field_aborts_witness :
    ((main catArgs (okWorld ghostResponse.customLabels smallImage)).exitCode = 2 ∧
        (main catArgs (okWorld ghostResponse.customLabels smallImage)).trace =
          callsToLog catFlags ghostResponse ++
          [.getObject (getObjectInput catFlags), .decode [137, 80, 78, 71],
           .newContextForImage smallImage,
           .loadFontFace "/Library/Fonts/Arial Unicode.ttf" 100, .setRGB 1 0 0,
           .setLineWidth 10] ++
          annotationCalls smallImage.width smallImage.height 0 [fullLabel] ++
          [.nilDereference] ∧
        (rectangles (main catArgs
          (okWorld ghostResponse.customLabels smallImage)).trace).length =
          [fullLabel].length ∧
        savedImages (main catArgs (okWorld ghostResponse.customLabels smallImage)).trace =
          []) ∧
      (Event.nilDereference ∉
          (main catArgs (okWorld twoLabels.customLabels smallImage)).trace ∧
        savedImages (main catArgs (okWorld twoLabels.customLabels smallImage)).trace =
          [("output.png",
            { width := 2, height := 1, pix := [⟨255, 0, 0, 255⟩, ⟨255, 0, 0, 255⟩] })] ∧
        (main catArgs (okWorld twoLabels.customLabels smallImage)).exitCode = 0) ∧
      ((main catArgs (okWorld [bareLabel] smallImage)).exitCode = 2 ∧
        (main catArgs (okWorld [bareLabel] smallImage)).trace =
          callsToLog catFlags bareResponse ++ [.nilDereference] ∧
        (∀ gi, Event.getObject gi ∉ (main catArgs (okWorld [bareLabel] smallImage)).trace) ∧
        (∀ body, Event.decode body ∉ (main catArgs (okWorld [bareLabel] smallImage)).trace) ∧
        savedImages (main catArgs (okWorld [bareLabel] smallImage)).trace = []) :=
  ⟨(nil_field_aborts catArgs (okWorld ghostResponse.customLabels smallImage) catFlags
      "us-east-1" ghostResponse rfl rfl rfl).2.1 [137, 80, 78, 71] smallImage "Arial Unicode"
      rfl rfl rfl ghostResponse_named [fullLabel] ghostLabel [halfLabel] rfl fullLabel_boxed
      rfl,
    (nil_field_aborts catArgs (okWorld twoLabels.customLabels smallImage) catFlags
      "us-east-1" twoLabels rfl rfl rfl).1 [137, 80, 78, 71] smallImage "Arial Unicode"
      rfl rfl rfl twoLabels_wellFormed,
    (nil_field_aborts catArgs (okWorld [bareLabel] smallImage) catFlags
      "us-east-1" bareResponse rfl rfl rfl).2.2 ⟨bareLabel, List.mem_cons_self _ _,
      Or.inl rfl⟩⟩

/-- C10 as stated fails on the response `[bareLabel]`: its label lacks its
geometry, every call of the world would succeed, and `main` aborts on the nil
name in the logging loop, so that the image is never fetched nor decoded. -/
theorem nil_geometry_abort_precedes_fetch :
    (∃ l ∈ [bareLabel], l.geometry = none ∧ boundingBoxFields l = none) ∧
      main catArgs (okWorld [bareLabel] smallImage) =
        ⟨[.loadDefaultConfig, .detectCustomLabels (detectInput catFlags),
          .printf "Detected %v labels" [.int 1], .nilDereference], 2⟩ ∧
      ¬ (∃ gi, Event.getObject gi ∈ (main catArgs (okWorld [bareLabel] smallImage)).trace) ∧
      ¬ (∃ body, Event.decode body ∈ (main catArgs (okWorld [bareLabel] smallImage)).trace) := by
  have h : main catArgs (okWorld [bareLabel] smallImage) =
      ⟨[.loadDefaultConfig, .detectCustomLabels (detectInput catFlags),
        .printf "Detected %v labels" [.int 1], .nilDereference], 2⟩ := rfl
  refine ⟨⟨bareLabel, by simp, rfl, rfl⟩, h, ?_, ?_⟩
  · rw [h]
    simp
  · rw [h]
    simp

end CustomLabels
